import Mathlib

/-!
Shallow embedding of the `bridge_django` SSO bridge (files `lms/views.py`,
`lms/views_openid.py`, `lms/models.py`) and proofs about its claims.

Machine strings are modelled as `List Char`; bytes as `Nat` values below 256;
timestamps as `Int`.  Every Python helper the endpoints rely on (HMAC-SHA256,
`urllib.parse` encoding, `str.split`, `base64.b64decode`, ...) is embedded as
an executable Lean function.  A Django `save()` updates the row fetched
earlier, identified by its primary key; since each table carries a unique
key, the embedding updates rows by whole-row equality.
-/

namespace Bridge

/-! ## UTF-8 encoding and decoding -/

/-- UTF-8 encoding of a single character (by code point). -/
def utf8Encode (c : Char) : List Nat :=
  let n := c.toNat
  if n < 128 then [n]
  else if n < 2048 then [192 + n / 64, 128 + n % 64]
  else if n < 65536 then [224 + n / 4096, 128 + (n / 64) % 64, 128 + n % 64]
  else [240 + n / 262144, 128 + (n / 4096) % 64, 128 + (n / 64) % 64, 128 + n % 64]

/-- UTF-8 encoding of a string (as a character list). -/
def utf8Bytes (l : List Char) : List Nat := (l.map utf8Encode).flatten

/-- Whether `n` is a valid Unicode scalar value. -/
def validScalar (n : Nat) : Bool := (n < 55296) || (57343 < n && n < 1114112)

/-- Strict UTF-8 decoding; `none` on any malformed byte sequence
(mirrors Python's `bytes.decode('utf-8')` raising). -/
def utf8DecodeF : Nat → List Nat → Option (List Char)
  | _, [] => some []
  | 0, _ => none
  | fuel+1, b :: rest =>
    if b < 128 then
      (utf8DecodeF fuel rest).map (Char.ofNat b :: ·)
    else if 192 ≤ b ∧ b < 224 then
      match rest with
      | b1 :: rest1 =>
        let n := (b - 192) * 64 + (b1 % 64)
        if 128 ≤ b1 ∧ b1 < 192 ∧ 128 ≤ n then
          (utf8DecodeF fuel rest1).map (Char.ofNat n :: ·)
        else none
      | _ => none
    else if 224 ≤ b ∧ b < 240 then
      match rest with
      | b1 :: b2 :: rest2 =>
        let n := (b - 224) * 4096 + (b1 % 64) * 64 + (b2 % 64)
        if 128 ≤ b1 ∧ b1 < 192 ∧ 128 ≤ b2 ∧ b2 < 192 ∧ 2048 ≤ n ∧ validScalar n then
          (utf8DecodeF fuel rest2).map (Char.ofNat n :: ·)
        else none
      | _ => none
    else if 240 ≤ b ∧ b < 245 then
      match rest with
      | b1 :: b2 :: b3 :: rest3 =>
        let n := (b - 240) * 262144 + (b1 % 64) * 4096 + (b2 % 64) * 64 + (b3 % 64)
        if 128 ≤ b1 ∧ b1 < 192 ∧ 128 ≤ b2 ∧ b2 < 192 ∧ 128 ≤ b3 ∧ b3 < 192 ∧
            65536 ≤ n ∧ n < 1114112 then
          (utf8DecodeF fuel rest3).map (Char.ofNat n :: ·)
        else none
      | _ => none
    else none

/-- Strict UTF-8 decoding of a byte list. -/
def utf8Decode (l : List Nat) : Option (List Char) := utf8DecodeF l.length l

/-- Lenient UTF-8 decoding: a malformed byte becomes U+FFFD and one byte is
skipped (models Python's `errors='replace'` used by `urllib.parse.unquote`). -/
def utf8DecodeReplaceF : Nat → List Nat → List Char
  | _, [] => []
  | 0, _ => []
  | fuel+1, b :: rest =>
    if b < 128 then Char.ofNat b :: utf8DecodeReplaceF fuel rest
    else if 192 ≤ b ∧ b < 224 then
      match rest with
      | b1 :: rest1 =>
        let n := (b - 192) * 64 + (b1 % 64)
        if 128 ≤ b1 ∧ b1 < 192 ∧ 128 ≤ n then
          Char.ofNat n :: utf8DecodeReplaceF fuel rest1
        else Char.ofNat 65533 :: utf8DecodeReplaceF fuel rest
      | _ => [Char.ofNat 65533]
    else if 224 ≤ b ∧ b < 240 then
      match rest with
      | b1 :: b2 :: rest2 =>
        let n := (b - 224) * 4096 + (b1 % 64) * 64 + (b2 % 64)
        if 128 ≤ b1 ∧ b1 < 192 ∧ 128 ≤ b2 ∧ b2 < 192 ∧ 2048 ≤ n ∧ validScalar n then
          Char.ofNat n :: utf8DecodeReplaceF fuel rest2
        else Char.ofNat 65533 :: utf8DecodeReplaceF fuel rest
      | _ => Char.ofNat 65533 :: utf8DecodeReplaceF fuel rest.tail
    else if 240 ≤ b ∧ b < 245 then
      match rest with
      | b1 :: b2 :: b3 :: rest3 =>
        let n := (b - 240) * 262144 + (b1 % 64) * 4096 + (b2 % 64) * 64 + (b3 % 64)
        if 128 ≤ b1 ∧ b1 < 192 ∧ 128 ≤ b2 ∧ b2 < 192 ∧ 128 ≤ b3 ∧ b3 < 192 ∧
            65536 ≤ n ∧ n < 1114112 then
          Char.ofNat n :: utf8DecodeReplaceF fuel rest3
        else Char.ofNat 65533 :: utf8DecodeReplaceF fuel rest
      | _ => Char.ofNat 65533 :: utf8DecodeReplaceF fuel rest.tail
    else Char.ofNat 65533 :: utf8DecodeReplaceF fuel rest

/-- Lenient UTF-8 decoding of a byte list. -/
def utf8DecodeReplace (l : List Nat) : List Char := utf8DecodeReplaceF l.length l

/-! ## SHA-256 (FIPS 180-4) over byte lists -/

/-- 2^32, the modulus of 32-bit arithmetic. -/
def m32 : Nat := 4294967296

/-- 32-bit modular addition. -/
def add32 (a b : Nat) : Nat := (a + b) % m32

/-- Bitwise exclusive or. -/
def xor32 (a b : Nat) : Nat := Nat.xor a b

/-- Bitwise and. -/
def and32 (a b : Nat) : Nat := Nat.land a b

/-- 32-bit bitwise complement. -/
def not32 (a : Nat) : Nat := Nat.xor a 4294967295

/-- 32-bit rotate right by `n`. -/
def rotr32 (n x : Nat) : Nat := Nat.lor (x >>> n) ((x <<< (32 - n)) % m32)

/-- Logical shift right by `n`. -/
def shr32 (n x : Nat) : Nat := x >>> n

/-- Big-endian 4-byte encoding of a 32-bit word. -/
def beBytes4 (n : Nat) : List Nat :=
  [(n >>> 24) % 256, (n >>> 16) % 256, (n >>> 8) % 256, n % 256]

/-- Big-endian 8-byte encoding of a 64-bit length field. -/
def beBytes8 (n : Nat) : List Nat :=
  [(n >>> 56) % 256, (n >>> 48) % 256, (n >>> 40) % 256, (n >>> 32) % 256,
   (n >>> 24) % 256, (n >>> 16) % 256, (n >>> 8) % 256, n % 256]

/-- Group bytes into big-endian 32-bit words. -/
def bytesToWords : List Nat → List Nat
  | b0 :: b1 :: b2 :: b3 :: rest =>
    (((b0 * 256 + b1) * 256 + b2) * 256 + b3) :: bytesToWords rest
  | _ => []

/-- SHA-256 message padding. -/
def sha256Pad (msg : List Nat) : List Nat :=
  let len := msg.length
  msg ++ [128] ++ List.replicate ((119 - len % 64) % 64) 0 ++ beBytes8 (8 * len)

/-- The eight SHA-256 working variables. -/
structure Hash8 where
  a : Nat
  b : Nat
  c : Nat
  d : Nat
  e : Nat
  f : Nat
  g : Nat
  h : Nat
deriving DecidableEq

/-- SHA-256 initial hash value (FIPS 180-4 `H₀…H₇`, in decimal). -/
def sha256Init : Hash8 :=
  ⟨1779033703, 3144134277, 1013904242, 2773480762,
   1359893119, 2600822924, 528734635, 1541459225⟩

/-- SHA-256 round constants (FIPS 180-4 `K₀…K₆₃`, in decimal). -/
def sha256K : List Nat :=
  [1116352408, 1899447441, 3049323471, 3921009573, 961987163, 1508970993,
   2453635748, 2870763221, 3624381080, 310598401, 607225278, 1426881987,
   1925078388, 2162078206, 2614888103, 3248222580, 3835390401, 4022224774,
   264347078, 604807628, 770255983, 1249150122, 1555081692, 1996064986,
   2554220882, 2821834349, 2952996808, 3210313671, 3336571891, 3584528711,
   113926993, 338241895, 666307205, 773529912, 1294757372, 1396182291,
   1695183700, 1986661051, 2177026350, 2456956037, 2730485921, 2820302411,
   3259730800, 3345764771, 3516065817, 3600352804, 4094571909, 275423344,
   430227734, 506948616, 659060556, 883997877, 958139571, 1322822218,
   1537002063, 1747873779, 1955562222, 2024104815, 2227730452, 2361852424,
   2428436474, 2756734187, 3204031479, 3329325298]

/-- Message-schedule sigma-0. -/
def sig0 (x : Nat) : Nat := xor32 (xor32 (rotr32 7 x) (rotr32 18 x)) (shr32 3 x)

/-- Message-schedule sigma-1. -/
def sig1 (x : Nat) : Nat := xor32 (xor32 (rotr32 17 x) (rotr32 19 x)) (shr32 10 x)

/-- Extend the 16-word block to the 64-word message schedule (appending `k` words). -/
def extendSchedule : Nat → List Nat → List Nat
  | 0, w => w
  | k+1, w =>
    let i := w.length
    let nw := add32 (add32 (w.getD (i-16) 0) (sig0 (w.getD (i-15) 0)))
                    (add32 (w.getD (i-7) 0) (sig1 (w.getD (i-2) 0)))
    extendSchedule k (w ++ [nw])

/-- One SHA-256 compression round; `kw` is the pair of round constant and
schedule word. -/
def sha256Round (s : Hash8) (kw : Nat × Nat) : Hash8 :=
  let bigS1 := xor32 (xor32 (rotr32 6 s.e) (rotr32 11 s.e)) (rotr32 25 s.e)
  let ch := xor32 (and32 s.e s.f) (and32 (not32 s.e) s.g)
  let t1 := add32 (add32 (add32 s.h bigS1) (add32 ch kw.1)) kw.2
  let bigS0 := xor32 (xor32 (rotr32 2 s.a) (rotr32 13 s.a)) (rotr32 22 s.a)
  let mj := xor32 (xor32 (and32 s.a s.b) (and32 s.a s.c)) (and32 s.b s.c)
  ⟨add32 t1 (add32 bigS0 mj), s.a, s.b, s.c, add32 s.d t1, s.e, s.f, s.g⟩

/-- Process one 64-byte chunk. -/
def sha256Chunk (h0 : Hash8) (chunk : List Nat) : Hash8 :=
  let w := extendSchedule 48 (bytesToWords chunk)
  let s := (sha256K.zip w).foldl sha256Round h0
  ⟨add32 h0.a s.a, add32 h0.b s.b, add32 h0.c s.c, add32 h0.d s.d,
   add32 h0.e s.e, add32 h0.f s.f, add32 h0.g s.g, add32 h0.h s.h⟩

/-- Split a byte list into 64-byte chunks. -/
def chunks64F : Nat → List Nat → List (List Nat)
  | _, [] => []
  | 0, l => [l]
  | fuel+1, b :: rest => ((b :: rest).take 64) :: chunks64F fuel ((b :: rest).drop 64)

/-- Split a (padded) message into 64-byte chunks. -/
def chunks64 (l : List Nat) : List (List Nat) := chunks64F l.length l

/-- SHA-256 digest (32 bytes) of a byte list. -/
def sha256Bytes (msg : List Nat) : List Nat :=
  let fin := (chunks64 (sha256Pad msg)).foldl sha256Chunk sha256Init
  beBytes4 fin.a ++ beBytes4 fin.b ++ beBytes4 fin.c ++ beBytes4 fin.d ++
  beBytes4 fin.e ++ beBytes4 fin.f ++ beBytes4 fin.g ++ beBytes4 fin.h

/-! ## HMAC-SHA256 and hex digests -/

/-- Lowercase hex digit for a nibble. -/
def hexDigit (n : Nat) : Char := if n < 10 then Char.ofNat (48 + n) else Char.ofNat (87 + n)

/-- Two lowercase hex digits of a byte. -/
def byteToHex (b : Nat) : List Char := [hexDigit (b / 16), hexDigit (b % 16)]

/-- Lowercase hex string of a byte list (Python `.hexdigest()`). -/
def bytesToHexChars (l : List Nat) : List Char := (l.map byteToHex).flatten

/-- HMAC-SHA256 (RFC 2104) over byte lists. -/
def hmacSha256 (key msg : List Nat) : List Nat :=
  let k0 := if 64 < key.length then sha256Bytes key else key
  let kp := k0 ++ List.replicate (64 - k0.length) 0
  sha256Bytes ((kp.map (Nat.xor · 92)) ++ sha256Bytes ((kp.map (Nat.xor · 54)) ++ msg))

/-- `hmac.new(secret.encode('utf-8'), msg.encode('utf-8'), hashlib.sha256).hexdigest()`
over character lists. -/
def hmacHexL (secret msg : List Char) : List Char :=
  bytesToHexChars (hmacSha256 (utf8Bytes secret) (utf8Bytes msg))

/-! ## Python string operations -/

/-- Python `s.split(sep)` for a one-character separator. -/
def splitChar (sep : Char) : List Char → List (List Char)
  | [] => [[]]
  | c :: rest =>
    if c = sep then [] :: splitChar sep rest
    else
      match splitChar sep rest with
      | [] => [[c]]
      | s :: ss => (c :: s) :: ss

/-- Prepend a character to the first field of a split result. -/
def consHead (c : Char) : List (List Char) → List (List Char)
  | [] => [[c]]
  | s :: ss => (c :: s) :: ss

/-- Fuelled Python `s.split(sep)` for the multi-character separator `s0 :: sep`
(leftmost, non-overlapping; `rsplit` without a maxsplit behaves identically). -/
def pySplitF (s0 : Char) (sep : List Char) : Nat → List Char → List (List Char)
  | _, [] => [[]]
  | 0, l => [l]
  | fuel+1, c :: rest =>
    if (s0 :: sep).isPrefixOf (c :: rest) then
      [] :: pySplitF s0 sep fuel (rest.drop sep.length)
    else consHead c (pySplitF s0 sep fuel rest)

/-- Python `s.split(s0 :: sep)` on character lists. -/
def pySplit (s0 : Char) (sep l : List Char) : List (List Char) :=
  pySplitF s0 sep l.length l

/-- Whether the sequence `sep` occurs contiguously inside `l`
(Python's `sep in s`). -/
def containsSeq (sep : List Char) : List Char → Bool
  | [] => sep.isEmpty
  | c :: rest => sep.isPrefixOf (c :: rest) || containsSeq sep rest

/-- Python `s.split(sep, 1)` when `sep` is one character that occurs in `s`:
the part before the first `sep` and the part after it. -/
def splitOnce (sep : Char) (l : List Char) : List Char × List Char :=
  (l.takeWhile (· ≠ sep), (l.dropWhile (· ≠ sep)).drop 1)

/-- Python `s.replace(old, new)` with `old = s0 :: sep`. -/
def pyReplace (s0 : Char) (sep new l : List Char) : List Char :=
  List.intercalate new (pySplit s0 sep l)

/-- Bytes that `urllib.parse.quote` never escapes (letters, digits, `_.-~`). -/
def urlSafeByte (b : Nat) : Bool :=
  (65 ≤ b && b ≤ 90) || (97 ≤ b && b ≤ 122) || (48 ≤ b && b ≤ 57) ||
  (b == 95) || (b == 46) || (b == 45) || (b == 126)

/-- Uppercase hex digit of a nibble (percent-encoding uses uppercase). -/
def hexDigitUpper (n : Nat) : Char :=
  if n < 10 then Char.ofNat (48 + n) else Char.ofNat (55 + n)

/-- `quote_plus` encoding of one byte: safe bytes stay, space becomes `+`,
anything else becomes `%XX`. -/
def quoteByteQP (b : Nat) : List Char :=
  if b = 32 then ['+']
  else if urlSafeByte b then [Char.ofNat b]
  else ['%', hexDigitUpper (b / 16), hexDigitUpper (b % 16)]

/-- `urllib.parse.quote_plus` on character lists (UTF-8 then percent-encode). -/
def quotePlusL (l : List Char) : List Char := ((utf8Bytes l).map quoteByteQP).flatten

/-- `urllib.parse.quote` with its default `safe='/'` (used by `authenticate_user`). -/
def quoteByteSlash (b : Nat) : List Char :=
  if urlSafeByte b || b == 47 then [Char.ofNat b]
  else ['%', hexDigitUpper (b / 16), hexDigitUpper (b % 16)]

/-- `urllib.parse.quote(s)` on character lists. -/
def pyQuoteL (l : List Char) : List Char := ((utf8Bytes l).map quoteByteSlash).flatten

/-- `urllib.parse.urlencode(d, doseq=True)` for a string-valued mapping,
in mapping order. -/
def urlencodeStrL (data : List (List Char × List Char)) : List Char :=
  List.intercalate ['&']
    (data.map fun kv => quotePlusL kv.1 ++ ['='] ++ quotePlusL kv.2)

/-- Value of a hex digit character, upper or lower case. -/
def hexVal (c : Char) : Option Nat :=
  if 48 ≤ c.toNat ∧ c.toNat ≤ 57 then some (c.toNat - 48)
  else if 97 ≤ c.toNat ∧ c.toNat ≤ 102 then some (c.toNat - 87)
  else if 65 ≤ c.toNat ∧ c.toNat ≤ 70 then some (c.toNat - 55)
  else none

/-- Collect a maximal run of valid `%XX` escapes into bytes, returning the
remaining characters. -/
def pctRun : List Char → List Nat × List Char
  | '%' :: h1 :: h2 :: rest =>
    match hexVal h1, hexVal h2 with
    | some a, some b =>
      match pctRun rest with
      | (bs, r) => ((16 * a + b) :: bs, r)
    | _, _ => ([], '%' :: h1 :: h2 :: rest)
  | l => ([], l)

/-- `urllib.parse.unquote`: `%XX` runs become UTF-8-decoded byte runs
(with replacement on malformed UTF-8); everything else passes through. -/
def pyUnquoteF : Nat → List Char → List Char
  | _, [] => []
  | 0, l => l
  | fuel+1, c :: rest =>
    if c = '%' then
      match pctRun (c :: rest) with
      | ([], _) => c :: pyUnquoteF fuel rest
      | (bs, r) => utf8DecodeReplace bs ++ pyUnquoteF fuel r
    else c :: pyUnquoteF fuel rest

/-- `urllib.parse.unquote` on character lists. -/
def pyUnquoteL (l : List Char) : List Char := pyUnquoteF l.length l

/-- Index of a character in the standard base64 alphabet. -/
def b64Val (c : Char) : Option Nat :=
  if 65 ≤ c.toNat ∧ c.toNat ≤ 90 then some (c.toNat - 65)
  else if 97 ≤ c.toNat ∧ c.toNat ≤ 122 then some (c.toNat - 71)
  else if 48 ≤ c.toNat ∧ c.toNat ≤ 57 then some (c.toNat + 4)
  else if c = '+' then some 62
  else if c = '/' then some 63
  else none

/-- Decode filtered base64 characters in groups of four; `=` padding is only
accepted at the very end. -/
def b64Groups : List Char → Option (List Nat)
  | [] => some []
  | c1 :: c2 :: c3 :: c4 :: rest =>
    match b64Val c1, b64Val c2 with
    | some v1, some v2 =>
      if c3 = '=' then
        if c4 = '=' ∧ rest = [] then some [v1 * 4 + v2 / 16] else none
      else
        match b64Val c3 with
        | some v3 =>
          if c4 = '=' then
            if rest = [] then some [v1 * 4 + v2 / 16, (v2 % 16) * 16 + v3 / 4] else none
          else
            match b64Val c4 with
            | some v4 =>
              (b64Groups rest).map
                ([v1 * 4 + v2 / 16, (v2 % 16) * 16 + v3 / 4, (v3 % 4) * 64 + v4] ++ ·)
            | none => none
        | none => none
    | _, _ => none
  | _ => none

/-- `base64.b64decode` on a Python string: ASCII-encode, discard characters
outside the alphabet, decode four-character groups. -/
def pyB64Decode (l : List Char) : Option (List Nat) :=
  if l.any (fun c => 128 ≤ c.toNat) then none
  else b64Groups (l.filter (fun c => (b64Val c).isSome || c = '='))

/-- Python `int(s)` on a decimal string (optional sign, at least one digit). -/
def pyIntOfChars (l : List Char) : Option Int :=
  let l := l.dropWhile (· = ' ')
  let l := l.reverse.dropWhile (· = ' ') |>.reverse
  let core := fun (ds : List Char) =>
    if ds ≠ [] ∧ ds.all (fun c => 48 ≤ c.toNat ∧ c.toNat ≤ 57) then
      some (ds.foldl (fun acc c => acc * 10 + ((c.toNat : Int) - 48)) 0)
    else none
  match l with
  | '-' :: ds => (core ds).map (- ·)
  | '+' :: ds => core ds
  | ds => core ds

/-! ## The signature codec (`sign_token` / `verify_token`, `lms/views.py`) -/

/-- The `&signature=` marker appended by `sign_token`. -/
def sigMarker : List Char := ['&', 's', 'i', 'g', 'n', 'a', 't', 'u', 'r', 'e', '=']

/-- `sign_token(data, secret)`: canonical query string plus HMAC hex digest. -/
def signTokenL (data : List (List Char × List Char)) (secret : List Char) : List Char :=
  let qs := urlencodeStrL data
  qs ++ sigMarker ++ hmacHexL secret qs

/-- Python dict assignment `d[k] = v` on an insertion-ordered association list. -/
def dictInsertStr (d : List (List Char × List Char)) (k v : List Char) :
    List (List Char × List Char) :=
  if d.any (fun kv => kv.1 = k) then
    d.map (fun kv => if kv.1 = k then (k, v) else kv)
  else d ++ [(k, v)]

/-- Parse a query string back to a dict exactly the way `verify_token` does:
split on `&`, keep pairs containing `=`, split each at the first `=`
(values are **not** unescaped). -/
def parseQS (qs : List Char) : List (List Char × List Char) :=
  (splitChar '&' qs).foldl
    (fun d pair =>
      if pair.contains '=' then
        match splitOnce '=' pair with
        | (k, v) => dictInsertStr d k v
      else d)
    []

/-- `verify_token(token, secret)`: `rsplit('&signature=')` must give exactly
two parts, the digest must match, then the query string is parsed back. -/
def verifyTokenL (tok secret : List Char) : Option (List (List Char × List Char)) :=
  match pySplit '&' ['s', 'i', 'g', 'n', 'a', 't', 'u', 'r', 'e', '='] tok with
  | [qs, sig] =>
    if sig = hmacHexL secret qs then some (parseQS qs) else none
  | _ => none

/-- A character that `quote_plus` leaves unchanged. -/
def safeChar (c : Char) : Bool := urlSafeByte c.toNat

/-- The canonical query string of a mapping whose keys and values consist of
safe characters (no escaping happens). -/
def plainQS (f : List (List Char × List Char)) : List Char :=
  List.intercalate ['&'] (f.map fun kv => kv.1 ++ '=' :: kv.2)

/-- A lowercase hex digit character. -/
def isHexChar (c : Char) : Bool :=
  (48 ≤ c.toNat && c.toNat ≤ 57) || (97 ≤ c.toNat && c.toNat ≤ 102)

/-- `sign_token` on Lean strings (source entry point). -/
def sign_token (data : List (String × String)) (secret : String) : String :=
  ⟨signTokenL (data.map fun kv => (kv.1.data, kv.2.data)) secret.data⟩

/-- `verify_token` on Lean strings (source entry point). -/
def verify_token (tok secret : String) : Option (List (String × String)) :=
  (verifyTokenL tok.data secret.data).map (·.map fun kv => (⟨kv.1⟩, ⟨kv.2⟩))

/-! ## JSON values and request data -/

/-- A JSON scalar as it appears in the login-notification body. -/
inductive JValue where
  | jstr (s : String)
  | jint (n : Int)
deriving DecidableEq

/-- Python `str(v)`. -/
def JValue.asString : JValue → String
  | jstr s => s
  | jint n => toString n

/-- Python truthiness of a JSON scalar. -/
def JValue.truthy : JValue → Bool
  | jstr s => s ≠ ""
  | jint n => n ≠ 0

/-- Python `int(v)`; `none` models a `ValueError`. -/
def JValue.pyInt : JValue → Option Int
  | jstr s => pyIntOfChars s.data
  | jint n => some n

/-- Dict assignment `d[k] = v` for JSON objects (insertion-ordered, last value
wins, original position kept). -/
def dictInsertJ (d : List (String × JValue)) (k : String) (v : JValue) :
    List (String × JValue) :=
  if d.any (fun kv => kv.1 = k) then
    d.map (fun kv => if kv.1 = k then (k, v) else kv)
  else d ++ [(k, v)]

/-- Build the Python dict produced by `json.loads` from the textual key/value
sequence of a JSON object (duplicate keys collapse, last value wins). -/
def normalizeObj (l : List (String × JValue)) : List (String × JValue) :=
  l.foldl (fun d kv => dictInsertJ d kv.1 kv.2) []

/-- Dict lookup `d.get(k)` on a normalized object. -/
def jsonGet (d : List (String × JValue)) (k : String) : Option JValue :=
  (d.find? (fun kv => kv.1 = k)).map (·.2)

/-- `urllib.parse.urlencode(d, doseq=True)` for a JSON-valued dict
(`str` values are quoted directly, `int` values via `str`). -/
def urlencodeJ (data : List (String × JValue)) : List Char :=
  List.intercalate ['&']
    (data.map fun kv => quotePlusL kv.1.data ++ ['='] ++ quotePlusL kv.2.asString.data)

/-! ## Data model (`lms/models.py`) -/

/-- `OHSAccount` row. -/
structure OHSAccount where
  id : Nat
  unique_id : String
  bridge_subaccount_id : String
  user_email : String
  first_name : String
  last_name : String
  is_active : Bool
deriving DecidableEq

/-- `OHSAuth` row. -/
structure OHSAuth where
  client_id : String
  client_secret : String
  bridge_base_url : String
  is_active : Bool
deriving DecidableEq

/-- `OHSAccessLog` row (audit fields only). -/
structure OHSAccessLog where
  accountId : Nat
  ip_address : String
  user_agent : String
  success : Bool
deriving DecidableEq

/-- `BridgeSyncTask` row (`task_type` and `status` use the model's choice codes). -/
structure BridgeSyncTask where
  accountId : Nat
  task_type : String
  status : String
deriving DecidableEq

/-- `OAuthAuthorizationCode` row. -/
structure OAuthAuthorizationCode where
  code : String
  accountId : Nat
  client_id : String
  expires_at : Int
  used : Bool
deriving DecidableEq

/-- `OAuthAccessToken` row. -/
structure OAuthAccessToken where
  token : String
  accountId : Nat
  client_id : String
  expires_at : Int
deriving DecidableEq

/-- `django.contrib.auth.models.User` row (fields the views touch). -/
structure DjangoUser where
  username : String
  email : String
  first_name : String
  last_name : String
deriving DecidableEq

/-- The persistent store: one list per table, in insertion order, plus the
next `OHSAccount` primary key. -/
structure DB where
  accounts : List OHSAccount
  auths : List OHSAuth
  logs : List OHSAccessLog
  tasks : List BridgeSyncTask
  codes : List OAuthAuthorizationCode
  tokens : List OAuthAccessToken
  users : List DjangoUser
  nextAccountId : Nat
deriving DecidableEq

/-- Browser session state (`request.session` plus the logged-in Django user). -/
structure Session where
  ohs_account_id : Option Nat
  ohs_unique_id : Option String
  djangoUser : Option String
deriving DecidableEq

/-- HTTP responses the views can produce.  `interstitial` stands for the HTML
page built by `authorize` that loads `iframeUrl` in a hidden iframe and
navigates the visible window to `visibleUrl`.  `notFound` is an uncaught
`Http404` rendered by Django, `serverError` an uncaught exception. -/
inductive Response where
  | ok (body : String)
  | jsonResp (fields : List (String × JValue))
  | redirect (url : String)
  | interstitial (iframeUrl visibleUrl : String)
  | badRequest (msg : String)
  | forbidden (msg : String)
  | notFound (msg : String)
  | serverError
deriving DecidableEq

/-- Whether a response is of the forbidden (HTTP 403) class. -/
def Response.isForbidden : Response → Bool
  | .forbidden _ => true
  | _ => false

/-- Whether a response is of the not-found (HTTP 404) class. -/
def Response.isNotFound : Response → Bool
  | .notFound _ => true
  | _ => false

/-! ## `lms/views.py` endpoints -/

/-- Incoming request metadata used for access logging. -/
structure ReqMeta where
  xForwardedFor : Option String
  remoteAddr : String
  userAgent : String
deriving DecidableEq

/-- `get_client_ip`. -/
def get_client_ip (meta : ReqMeta) : String :=
  match meta.xForwardedFor with
  | some x => if x ≠ "" then ⟨(splitChar ',' x.data).headD []⟩ else meta.remoteAddr
  | none => meta.remoteAddr

/-- Request body of `POST /onlogin/`: the parsed JSON object in textual order,
or `none` when `json.loads` fails. -/
structure LoginRequest where
  body : Option (List (String × JValue))
  meta : ReqMeta
deriving DecidableEq

/-- `wordpress_login_notification` (`lms/views.py`).  `now` is `time.time()`.
All exceptions are caught at the boundary and become 400 responses. -/
def wordpress_login_notification (db : DB) (req : LoginRequest) (now : Int) :
    DB × Response :=
  match (db.auths.filter (·.is_active)).head? with
  | none => (db, .badRequest "No active authentication configured")
  | some auth =>
    match req.body with
    | none => (db, .badRequest "Error: malformed JSON body")
    | some rawObj =>
      let data := normalizeObj rawObj
      match jsonGet data "signature" with
      | none => (db, .badRequest "Missing signature")
      | some sv =>
        if ¬ sv.truthy then (db, .badRequest "Missing signature")
        else
          let dataCopy := data.filter (fun kv => kv.1 ≠ "signature")
          let dataString := urlencodeJ dataCopy
          let expected : String := ⟨hmacHexL auth.client_secret.data dataString⟩
          if sv ≠ .jstr expected then (db, .badRequest "Invalid signature")
          else
            match ((jsonGet data "timestamp").getD (.jint 0)).pyInt with
            | none => (db, .badRequest "Error: invalid timestamp")
            | some ts =>
              if 300 < |now - ts| then (db, .badRequest "Token expired")
              else
                match jsonGet data "unique_id" with
                | none => (db, .badRequest "Missing unique_id")
                | some uv =>
                  if ¬ uv.truthy then (db, .badRequest "Missing unique_id")
                  else
                    let uid := uv.asString
                    let getS := fun (k : String) (dflt : String) =>
                      match jsonGet data k with
                      | some v => v.asString
                      | none => dflt
                    match db.accounts.filter (·.unique_id = uid) with
                    | [] =>
                      let acct : OHSAccount :=
                        { id := db.nextAccountId, unique_id := uid,
                          bridge_subaccount_id := getS "bridge_subaccount_id" "",
                          user_email := getS "email" "",
                          first_name := getS "first_name" "",
                          last_name := getS "last_name" "",
                          is_active := true }
                      ({ db with
                          accounts := db.accounts ++ [acct],
                          nextAccountId := db.nextAccountId + 1,
                          logs := db.logs ++
                            [{ accountId := acct.id, ip_address := get_client_ip req.meta,
                               user_agent := req.meta.userAgent, success := true }],
                          tasks := db.tasks ++
                            [{ accountId := acct.id, task_type := "U", status := "P" }] },
                        .ok "OK")
                    | [acct0] =>
                      let acct : OHSAccount :=
                        { acct0 with
                          user_email := getS "email" acct0.user_email,
                          first_name := getS "first_name" acct0.first_name,
                          last_name := getS "last_name" acct0.last_name,
                          bridge_subaccount_id :=
                            getS "bridge_subaccount_id" acct0.bridge_subaccount_id }
                      ({ db with
                          accounts := db.accounts.map
                            (fun a => if a = acct0 then acct else a),
                          logs := db.logs ++
                            [{ accountId := acct.id, ip_address := get_client_ip req.meta,
                               user_agent := req.meta.userAgent, success := true }],
                          tasks := db.tasks ++
                            [{ accountId := acct.id, task_type := "U", status := "P" }] },
                        .ok "OK")
                    | _ => (db, .badRequest "Error: get() returned more than one OHSAccount")

/-- Result of a view that can mutate both the store and the session. -/
structure ViewResult where
  db : DB
  session : Session
  response : Response
deriving DecidableEq

/-- `authenticate_user` (`GET /auth/<unique_id>/`).  The `Http404` raised by
`get_object_or_404` is caught by the view's catch-all `except Exception`
handler and surfaced as a 400 whose body carries the error text. -/
def authenticate_user (db : DB) (sess : Session) (meta : ReqMeta)
    (unique_id : String) : ViewResult :=
  match db.accounts.filter (fun a => a.unique_id = unique_id && a.is_active) with
  | [] =>
    { db := db, session := sess,
      response := .badRequest "Error: No OHSAccount matches the given query." }
  | [account] =>
    let logRow : OHSAccessLog :=
      { accountId := account.id, ip_address := get_client_ip meta,
        user_agent := meta.userAgent, success := true }
    let db1 := { db with logs := db.logs ++ [logRow] }
    match db1.users.filter (·.username = account.unique_id) with
    | [] =>
      let newUser : DjangoUser :=
        { username := account.unique_id, email := account.user_email,
          first_name := account.first_name, last_name := account.last_name }
      let db2 := { db1 with users := db1.users ++ [newUser] }
      { db := db2,
        session :=
          { ohs_account_id := some account.id,
            ohs_unique_id := some account.unique_id,
            djangoUser := some account.unique_id },
        response := .redirect
          ("https://" ++ account.bridge_subaccount_id ++ ".bridgeapp.com/login?state=" ++
            (⟨pyQuoteL account.unique_id.data⟩ : String)) }
    | [u0] =>
      let db2 := { db1 with users := db1.users.map (fun u =>
        if u = u0 then
          { u0 with
            email := account.user_email,
            first_name := account.first_name,
            last_name := account.last_name }
        else u) }
      { db := db2,
        session :=
          { ohs_account_id := some account.id,
            ohs_unique_id := some account.unique_id,
            djangoUser := some account.unique_id },
        response := .redirect
          ("https://" ++ account.bridge_subaccount_id ++ ".bridgeapp.com/login?state=" ++
            (⟨pyQuoteL account.unique_id.data⟩ : String)) }
    | _ =>
      { db := db1, session := sess,
        response := .badRequest "Error: get() returned more than one User" }
  | _ =>
    { db := db, session := sess,
      response := .badRequest "Error: get() returned more than one OHSAccount" }

/-- `bridge_sso_callback` (`GET /bridge/callback/?token=...`).  Note that an
empty `user_data` dict is falsy, and the `Http404` of `get_object_or_404` is
caught by the catch-all handler. -/
def bridge_sso_callback (db : DB) (meta : ReqMeta) (tokenParam : Option String) :
    DB × Response :=
  match tokenParam with
  | none => (db, .badRequest "Missing token")
  | some t =>
    if t = "" then (db, .badRequest "Missing token")
    else
      match pyB64Decode t.data with
      | none => (db, .badRequest "Error: invalid base64-encoded string")
      | some bytes =>
        match utf8Decode bytes with
        | none => (db, .badRequest "Error: invalid utf-8 payload")
        | some decoded =>
          match (db.auths.filter (·.is_active)).head? with
          | none => (db, .badRequest "Authentication not configured")
          | some auth =>
            match verifyTokenL decoded auth.client_secret.data with
            | none => (db, .badRequest "Invalid token")
            | some userData =>
              if userData = [] then (db, .badRequest "Invalid token")
              else
                match userData.find? (fun kv => kv.1 = "user_id".data) with
                | none => (db, .badRequest "Error: KeyError user_id")
                | some kv =>
                  match db.accounts.filter (·.unique_id = (⟨kv.2⟩ : String)) with
                  | [] =>
                    (db, .badRequest "Error: No OHSAccount matches the given query.")
                  | [account] =>
                    ({ db with logs := db.logs ++
                        [{ accountId := account.id, ip_address := get_client_ip meta,
                           user_agent := meta.userAgent, success := true }] },
                      .redirect (auth.bridge_base_url ++ "/" ++
                        account.bridge_subaccount_id ++ "/learner/courses"))
                  | _ =>
                    (db, .badRequest "Error: get() returned more than one OHSAccount")

/-! ## `lms/views_openid.py` endpoints -/

/-- The GET parameters of `/openid/authorize/` (`none` = missing). -/
structure AuthorizeRequest where
  client_id : Option String
  redirect_uri : Option String
  state : Option String
deriving DecidableEq

/-- `request.user` as seen by `authorize`. -/
structure UserCtx where
  is_authenticated : Bool
  email : String
deriving DecidableEq

/-- The `re.search(r'https://([^\.]+)\.bridgeapp\.com', s)` subdomain
extraction: leftmost position where `https://` is followed by a nonempty
dot-free run and then the literal `.bridgeapp.com`. -/
def subdomainSearchF : Nat → List Char → Option (List Char)
  | _, [] => none
  | 0, _ => none
  | fuel+1, c :: rest =>
    if "https://".data.isPrefixOf (c :: rest) then
      let afterScheme := (c :: rest).drop 8
      let run := afterScheme.takeWhile (· ≠ '.')
      if run ≠ [] ∧ ".bridgeapp.com".data.isPrefixOf (afterScheme.dropWhile (· ≠ '.')) then
        some run
      else subdomainSearchF fuel rest
    else subdomainSearchF fuel rest

/-- Regex subdomain search over a character list. -/
def pySubdomainSearch (l : List Char) : Option (List Char) :=
  subdomainSearchF l.length l

/-- The unique-id recovery from the `state` parameter (`views_openid.py`
lines 47–67): runs only when the session carried no `ohs_unique_id`. -/
def stateDecodedUid (db : DB) (state : String) : Option String :=
  let ds := pyUnquoteL state.data
  if ds.contains '|' then
    match (db.accounts.filter (·.unique_id = (⟨(splitOnce '|' ds).2⟩ : String))).head? with
    | some account => some account.unique_id
    | none => none
  else if ds.contains '@' ∨ 10 < ds.length then
    match (db.accounts.filter (·.unique_id = (⟨ds⟩ : String))).head? with
    | some account => some account.unique_id
    | none => none
  else none

/-- `authorize` (`GET /openid/authorize/`).  `newCode` stands for the value
`secrets.token_urlsafe(16)` returns.  The view's
`except (OHSAuth.DoesNotExist, OHSAccount.DoesNotExist)` handler is
unreachable: `get_object_or_404` raises `Http404`, which propagates to a 404
page, and both `filter(...).first()` calls return `None` instead of raising. -/
def authorize (db : DB) (sess : Session) (user : UserCtx) (req : AuthorizeRequest)
    (newCode : String) (now : Int) : ViewResult :=
  match req.client_id, req.redirect_uri, req.state with
  | some client_id, some redirect_uri, some state =>
    let unique_id : Option String :=
      if state ≠ "" ∧ sess.ohs_unique_id = none then stateDecodedUid db state
      else sess.ohs_unique_id
    let resolved : Option OHSAccount ⊕ Response :=
      match sess.ohs_account_id with
      | some aid =>
        match db.accounts.filter (·.id = aid) with
        | [account] => .inl (some account)
        | [] => .inr (.notFound "No OHSAccount matches the given query.")
        | _ => .inr .serverError
      | none =>
        match unique_id with
        | some u =>
          match db.accounts.filter (·.unique_id = u) with
          | [account] => .inl (some account)
          | [] => .inr (.notFound "No OHSAccount matches the given query.")
          | _ => .inr .serverError
        | none =>
          if user.is_authenticated then
            match db.accounts.filter (·.user_email = user.email) with
            | [account] => .inl (some account)
            | [] => .inr (.notFound "No OHSAccount matches the given query.")
            | _ => .inr .serverError
          else .inl none
    match resolved with
    | .inr r => { db := db, session := sess, response := r }
    | .inl none =>
      { db := db, session := sess,
        response := .forbidden "User session not found. Please start from WordPress login." }
    | .inl (some account) =>
      match (db.auths.filter (·.is_active)).head? with
      | none =>
        { db := db, session := sess, response := .badRequest "Authentication not configured" }
      | some _auth =>
        if db.codes.any (·.code = newCode) then
          { db := db, session := sess, response := .serverError }
        else
          let codeRow : OAuthAuthorizationCode :=
            { code := newCode, accountId := account.id, client_id := client_id,
              expires_at := now + 300, used := false }
          let db1 := { db with codes := db.codes ++ [codeRow] }
          let sessOut : Session :=
            { ohs_account_id := none, ohs_unique_id := none, djangoUser := none }
          let ds := if state ≠ "" then pyUnquoteL state.data else []
          let statePath := if ds.contains '|' then (splitOnce '|' ds).1 else ds
          let redirectWithCode := redirect_uri ++ "?" ++
            (⟨urlencodeStrL [("code".data, newCode.data), ("state".data, state.data)]⟩ : String)
          if statePath.head? = some '/' ∧ account.bridge_subaccount_id ≠ "" then
            let bridgeSubdomain : List Char :=
              match pySubdomainSearch redirect_uri.data with
              | some sub =>
                if containsSeq "-safetynow".data sub then sub else sub ++ "-safetynow".data
              | none => account.bridge_subaccount_id.data
            { db := db1, session := sessOut,
              response := .interstitial redirectWithCode
                ("https://" ++ (⟨bridgeSubdomain⟩ : String) ++ ".bridgeapp.com" ++
                  (⟨statePath⟩ : String)) }
          else
            { db := db1, session := sessOut, response := .redirect redirectWithCode }
  | _, _, _ =>
    { db := db, session := sess,
      response := .badRequest "Incomplete set of parameters for /openid/authorize/" }

/-- Decode the Basic Authorization header the way the token endpoint does:
strip every occurrence of `"Basic "`, base64-decode, UTF-8-decode, and split
on `':'` into exactly two parts.  Any failure is `none` (caught by the view's
bare `except`). -/
def parseBasicAuth (header : String) : Option (String × String) :=
  let credentials := pyReplace 'B' "asic ".data [] header.data
  match pyB64Decode credentials with
  | none => none
  | some bytes =>
    match utf8Decode bytes with
    | none => none
    | some decoded =>
      match splitChar ':' decoded with
      | [cid, csec] => some (⟨cid⟩, ⟨csec⟩)
      | _ => none

/-- The POST data of `/openid/token/` (`none` = missing). -/
structure TokenRequest where
  authorization : Option String
  code : Option String
deriving DecidableEq

/-- `token` (`POST /openid/token/`).  `newToken` stands for the value
`secrets.token_urlsafe(16)` returns; `now` is `timezone.now()`.  The code row
is fetched with `used=False, expires_at__gt=now`, the account dereferenced,
the row marked used and saved, and a fresh access token stored. -/
def token (db : DB) (req : TokenRequest) (newToken : String) (now : Int) :
    DB × Response :=
  match req.authorization, req.code with
  | some auth_header, some code =>
    match parseBasicAuth auth_header with
    | none => (db, .forbidden "Invalid credentials")
    | some (client_id, client_secret) =>
      match db.auths.filter (fun a => a.client_id = client_id && a.is_active) with
      | [auth] =>
        if auth.client_secret ≠ client_secret then (db, .forbidden "Invalid credentials")
        else
          match db.codes.filter (fun c => c.code = code && !c.used && now < c.expires_at) with
          | [] => (db, .forbidden "Invalid or expired authorization code")
          | [authCode] =>
            match db.accounts.filter (·.id = authCode.accountId) with
            | [account] =>
              let markedCodes := db.codes.map
                (fun c => if c = authCode then { c with used := true } else c)
              let db1 := { db with codes := markedCodes }
              if db1.tokens.any (·.token = newToken) then (db1, .serverError)
              else
                let tokRow : OAuthAccessToken :=
                  { token := newToken, accountId := account.id,
                    client_id := client_id, expires_at := now + 3600 }
                ({ db1 with tokens := db1.tokens ++ [tokRow] },
                  .jsonResp [("access_token", .jstr newToken),
                             ("token_type", .jstr "Bearer"),
                             ("expires_in", .jint 3600)])
            | _ => (db, .serverError)
          | _ => (db, .serverError)
      | _ => (db, .forbidden "Invalid credentials")
  | _, _ => (db, .badRequest "Missing code or authorization header")

/-- `userinfo` (`GET /openid/userinfo/`).  Reads only; `now` is
`timezone.now()`. -/
def userinfo (db : DB) (authHeader : Option String) (now : Int) : Response :=
  match authHeader with
  | none => .forbidden "Missing or invalid authorization header"
  | some hdr =>
    match splitChar ' ' hdr.data with
    | [ty, tok] =>
      if (⟨ty⟩ : String) ≠ "Bearer" then .forbidden "Invalid token type"
      else
        match db.tokens.filter (fun t => t.token = (⟨tok⟩ : String) && now < t.expires_at) with
        | [] => .forbidden "Invalid or expired access token"
        | [atok] =>
          match db.accounts.filter (·.id = atok.accountId) with
          | [account] =>
            .jsonResp [("uid", .jstr account.unique_id),
                       ("email", .jstr account.user_email),
                       ("first_name", .jstr account.first_name),
                       ("family_name", .jstr account.last_name),
                       ("sub", .jstr account.unique_id)]
          | _ => .serverError
        | _ => .serverError
    | _ => .forbidden "Missing or invalid authorization header"

/-! ## Request steps over the store -/

/-- One inbound HTTP request, with everything nondeterministic
(session, clock, fresh random values) made explicit. -/
inductive Op where
  | opLogin (req : LoginRequest) (now : Int)
  | opAuthUser (sess : Session) (meta : ReqMeta) (uid : String)
  | opCallback (meta : ReqMeta) (tok : Option String)
  | opAuthorize (sess : Session) (user : UserCtx) (req : AuthorizeRequest)
      (newCode : String) (now : Int)
  | opToken (req : TokenRequest) (newToken : String) (now : Int)
  | opUserinfo (hdr : Option String) (now : Int)

/-- The store transition performed by one request (`userinfo` reads only). -/
def applyOp (db : DB) : Op → DB
  | .opLogin req now => (wordpress_login_notification db req now).1
  | .opAuthUser sess meta uid => (authenticate_user db sess meta uid).db
  | .opCallback meta t => (bridge_sso_callback db meta t).1
  | .opAuthorize sess user req c now => (authorize db sess user req c now).db
  | .opToken req t now => (token db req t now).1
  | .opUserinfo _ _ => db

/-! ## Concrete fixtures used by witnesses and counterexamples -/

/-- A sample active account. -/
def wAcct : OHSAccount :=
  { id := 1, unique_id := "2019513-AIR-G-48", bridge_subaccount_id := "tenant",
    user_email := "user@example.com", first_name := "Ann", last_name := "Lee",
    is_active := true }

/-- A sample active auth client (`client_id = "cid"`, secret `"sec"`). -/
def wAuth : OHSAuth :=
  { client_id := "cid", client_secret := "sec",
    bridge_base_url := "https://safetynow.bridgeapp.com", is_active := true }

/-- A sample unused authorization code for `wAcct`, expiring at time 1000. -/
def wCode : OAuthAuthorizationCode :=
  { code := "CODE1", accountId := 1, client_id := "cid", expires_at := 1000,
    used := false }

/-- A sample store holding the fixtures above. -/
def wDB : DB :=
  { accounts := [wAcct], auths := [wAuth], logs := [], tasks := [],
    codes := [wCode], tokens := [], users := [], nextAccountId := 2 }

/-- An empty session. -/
def emptySession : Session :=
  { ohs_account_id := none, ohs_unique_id := none, djangoUser := none }

/-- Sample request metadata. -/
def wMeta : ReqMeta := { xForwardedFor := none, remoteAddr := "1.2.3.4", userAgent := "UA" }

/-- `Basic base64("cid:sec")`: the correct Basic header for `wAuth`. -/
def wBasicHeader : String := "Basic Y2lkOnNlYw=="

/-- The six payload fields of a login notification, in wire order. -/
def loginPayload (u e fn ln sub : String) (ts : Int) : List (String × JValue) :=
  [("unique_id", .jstr u), ("email", .jstr e), ("first_name", .jstr fn),
   ("last_name", .jstr ln), ("bridge_subaccount_id", .jstr sub), ("timestamp", .jint ts)]

/-- The signature WordPress computes for a login payload. -/
def loginSig (secret u e fn ln sub : String) (ts : Int) : String :=
  ⟨hmacHexL secret.data (urlencodeJ (loginPayload u e fn ln sub ts))⟩

/-- A complete validly-signed login notification body. -/
def signedLoginBody (secret u e fn ln sub : String) (ts : Int) :
    List (String × JValue) :=
  loginPayload u e fn ln sub ts ++
    [("signature", .jstr (loginSig secret u e fn ln sub ts))]

/-- One login-notification request with a validly signed payload. -/
def loginStep (db : DB) (meta : ReqMeta) (secret u e fn ln sub : String)
    (ts now : Int) : DB × Response :=
  wordpress_login_notification db
    { body := some (signedLoginBody secret u e fn ln sub ts), meta := meta } now

/-- A sample stored access token for `wAcct`, expiring at time 4100. -/
def wTok : OAuthAccessToken :=
  { token := "TOK1", accountId := 1, client_id := "cid", expires_at := 4100 }

/-- An unused code minted for a different client id (`"other"`). -/
def wXCode : OAuthAuthorizationCode :=
  { code := "CODE2", accountId := 1, client_id := "other", expires_at := 1000,
    used := false }

/-- A store whose only code was minted for client id `"other"`. -/
def wXDB : DB := { wDB with codes := [wXCode] }

/-- A sample store holding `wTok`. -/
def wTokDB : DB := { wDB with tokens := [wTok] }

/-- A store with no AuthClient rows at all. -/
def wNoAuthDB : DB := { wDB with auths := [] }

/-- A session carrying the account id of `wAcct`. -/
def wSessAid : Session :=
  { ohs_account_id := some 1, ohs_unique_id := none, djangoUser := none }

/-- A session carrying a stale account id (no such row). -/
def wSessStale : Session :=
  { ohs_account_id := some 5, ohs_unique_id := none, djangoUser := none }

/-- A code value is spent in a store: some row carries it and every row
carrying it is marked used. -/
def codeSpent (db : DB) (code : String) : Prop :=
  (∃ c ∈ db.codes, c.code = code) ∧ ∀ c ∈ db.codes, c.code = code → c.used = true

/-! ## Helper lemmas -/

/-- Structure eta for strings. -/
theorem stringMk_data (s : String) : String.mk s.data = s := rfl

/-- `splitChar` of a list free of the separator. -/
theorem splitChar_nosep (sep : Char) :
    ∀ l : List Char, (∀ c ∈ l, ¬ c = sep) → splitChar sep l = [l] := by
  intro l
  induction l with
  | nil => intro _; rfl
  | cons c t ih =>
    intro h
    have hc : ¬ c = sep := h c (List.mem_cons_self c t)
    have ht := ih (fun x hx => h x (List.mem_cons_of_mem c hx))
    simp [splitChar, hc, ht, consHead]

/-- `splitChar` splits off a separator-free prefix at the first separator. -/
theorem splitChar_sep_front (sep : Char) (l : List Char) :
    ∀ pre : List Char, (∀ c ∈ pre, ¬ c = sep) →
      splitChar sep (pre ++ sep :: l) = pre :: splitChar sep l := by
  intro pre
  induction pre with
  | nil => intro _; simp [splitChar]
  | cons c p ih =>
    intro h
    have hc : ¬ c = sep := h c (List.mem_cons_self c p)
    have hp := ih (fun x hx => h x (List.mem_cons_of_mem c hx))
    simp [splitChar, hc, hp, consHead]

/-! ## C9 — Session Bridge error class for unknown `unique_id` -/

/-- **C9 counterexample.**  The claim asserts a not-found response for an
unknown `unique_id`; on the code the `Http404` raised by `get_object_or_404`
is swallowed by the view's catch-all `except Exception` handler, and the
caller receives a 400 bad request carrying the error text — not a 404. -/
theorem C9_counterexample :
    (authenticate_user wDB emptySession wMeta "nobody").response =
      .badRequest "Error: No OHSAccount matches the given query." ∧
    (authenticate_user wDB emptySession wMeta "nobody").response.isNotFound = false := by
  constructor <;> rfl

/-- **C9 (amended).**  For every Session Bridge request whose `unique_id`
matches no active Account, the endpoint returns a 400 bad-request response
carrying the not-found error text (still distinct from the forbidden class
used on adversary-reachable paths), and writes no AccessLog entry and no
session state. -/
theorem C9_session_bridge_unknown_uid (db : DB) (sess : Session) (meta : ReqMeta)
    (uid : String)
    (h : db.accounts.filter (fun a => a.unique_id = uid && a.is_active) = []) :
    authenticate_user db sess meta uid =
      { db := db, session := sess,
        response := .badRequest "Error: No OHSAccount matches the given query." } ∧
    (authenticate_user db sess meta uid).response.isForbidden = false ∧
    (authenticate_user db sess meta uid).response.isNotFound = false := by
  have he : authenticate_user db sess meta uid =
      { db := db, session := sess,
        response := .badRequest "Error: No OHSAccount matches the given query." } := by
    simp only [authenticate_user, h]
  exact ⟨he, by rw [he]; rfl, by rw [he]; rfl⟩

/-- **C9 witness.** -/
theorem C9_witness :
    wDB.accounts.filter (fun a => a.unique_id = "ghost" && a.is_active) = [] ∧
    authenticate_user wDB emptySession wMeta "ghost" =
      { db := wDB, session := emptySession,
        response := .badRequest "Error: No OHSAccount matches the given query." } :=
  ⟨by decide,
   (C9_session_bridge_unknown_uid wDB emptySession wMeta "ghost" (by decide)).1⟩

/-! ## C7 — UserInfo endpoint -/

/-- **C7.**  A `Bearer` header carrying a stored, unexpired token yields the
200 claims `{uid, email, first_name, family_name, sub}` with
`sub = uid = Account.unique_id`; a missing header, a header that does not
split into exactly two space-separated parts, a non-`Bearer` scheme, or an
unknown/expired token yield a forbidden response. -/
theorem C7_userinfo_claims (db : DB) (now : Int) :
    (∀ (tk : String) (atok : OAuthAccessToken) (account : OHSAccount),
      ' ' ∉ tk.data →
      db.tokens.filter (fun t => t.token = tk && now < t.expires_at) = [atok] →
      db.accounts.filter (·.id = atok.accountId) = [account] →
      userinfo db (some ("Bearer " ++ tk)) now =
        .jsonResp [("uid", .jstr account.unique_id),
                   ("email", .jstr account.user_email),
                   ("first_name", .jstr account.first_name),
                   ("family_name", .jstr account.last_name),
                   ("sub", .jstr account.unique_id)]) ∧
    ((userinfo db none now).isForbidden = true) ∧
    (∀ hdr : String, (splitChar ' ' hdr.data).length ≠ 2 →
      (userinfo db (some hdr) now).isForbidden = true) ∧
    (∀ (hdr : String) (ty tk : List Char), splitChar ' ' hdr.data = [ty, tk] →
      (⟨ty⟩ : String) ≠ "Bearer" → (userinfo db (some hdr) now).isForbidden = true) ∧
    (∀ (hdr : String) (tk : List Char), splitChar ' ' hdr.data = ["Bearer".data, tk] →
      db.tokens.filter (fun t => t.token = (⟨tk⟩ : String) && now < t.expires_at) = [] →
      userinfo db (some hdr) now = .forbidden "Invalid or expired access token") := by
  refine ⟨?_, ?_, ?_, ?_, ?_⟩
  · intro tk atok account hsp htok hacc
    have hdata : ("Bearer " ++ tk).data = ['B','e','a','r','e','r'] ++ ' ' :: tk.data := by
      rw [String.data_append]; rfl
    have hsplit : splitChar ' ' (("Bearer " ++ tk) : String).data =
        ['B','e','a','r','e','r'] :: splitChar ' ' tk.data := by
      rw [hdata]
      exact splitChar_sep_front ' ' tk.data ['B','e','a','r','e','r'] (by decide)
    have hone : splitChar ' ' tk.data = [tk.data] :=
      splitChar_nosep ' ' tk.data (fun c hc he => hsp (he ▸ hc))
    rw [hone] at hsplit
    simp only [userinfo, hsplit, stringMk_data]
    have hB : (⟨['B','e','a','r','e','r']⟩ : String) = "Bearer" := rfl
    rw [hB]
    simp only [ne_eq, not_true_eq_false, if_false, htok, hacc]
  · rfl
  · intro hdr hlen
    match hs : splitChar ' ' hdr.data with
    | [] => simp [userinfo, hs, Response.isForbidden]
    | [a] => simp [userinfo, hs, Response.isForbidden]
    | [a, b] => rw [hs] at hlen; simp at hlen
    | a :: b :: c :: t => simp [userinfo, hs, Response.isForbidden]
  · intro hdr ty tk hs hty
    simp [userinfo, hs, hty, Response.isForbidden]
  · intro hdr tk hs hfil
    have hB : (⟨"Bearer".data⟩ : String) = "Bearer" := rfl
    simp only [userinfo, hs, hB, ne_eq, not_true_eq_false, if_false, hfil]

/-- **C7 witness.** -/
theorem C7_witness :
    (' ' ∉ "TOK1".data ∧
      wTokDB.tokens.filter (fun t => t.token = "TOK1" && (600 : Int) < t.expires_at) =
        [wTok] ∧
      wTokDB.accounts.filter (·.id = wTok.accountId) = [wAcct] ∧
      userinfo wTokDB (some ("Bearer " ++ "TOK1")) 600 =
        .jsonResp [("uid", .jstr "2019513-AIR-G-48"),
                   ("email", .jstr "user@example.com"),
                   ("first_name", .jstr "Ann"),
                   ("family_name", .jstr "Lee"),
                   ("sub", .jstr "2019513-AIR-G-48")]) ∧
    ((splitChar ' ' "Bad".data).length ≠ 2 ∧
      (userinfo wTokDB (some "Bad") 600).isForbidden = true) ∧
    (wTokDB.tokens.filter (fun t => t.token = (⟨"ZZZ".data⟩ : String) &&
        (600 : Int) < t.expires_at) = [] ∧
      userinfo wTokDB (some "Bearer ZZZ") 600 =
        .forbidden "Invalid or expired access token") := by
  refine ⟨⟨by decide, by decide, by decide, ?_⟩, ⟨by decide, ?_⟩, ⟨by decide, ?_⟩⟩
  · exact (C7_userinfo_claims wTokDB 600).1 "TOK1" wTok wAcct (by decide)
      (by decide) (by decide)
  · exact (C7_userinfo_claims wTokDB 600).2.2.1 "Bad" (by decide)
  · exact (C7_userinfo_claims wTokDB 600).2.2.2.2 "Bearer ZZZ" "ZZZ".data (by decide)
      (by decide)

/-! ## Token endpoint: shared success characterization -/

/-- Full behaviour of a successful token exchange: correct Basic credentials
of the unique active client, a uniquely stored unused unexpired code, an
intact account foreign key, and a fresh token value yield the marked code,
the new access token, and the 200 JSON body. -/
theorem token_success_eq (db : DB) (hdr code newToken : String) (now : Int)
    (cid sec : String) (auth : OHSAuth) (ac : OAuthAuthorizationCode)
    (account : OHSAccount)
    (hb : parseBasicAuth hdr = some (cid, sec))
    (ha : db.auths.filter (fun a => a.client_id = cid && a.is_active) = [auth])
    (hsec : auth.client_secret = sec)
    (hc : db.codes.filter (fun c => c.code = code && !c.used && now < c.expires_at) = [ac])
    (hacc : db.accounts.filter (·.id = ac.accountId) = [account])
    (hfresh : db.tokens.any (·.token = newToken) = false) :
    token db { authorization := some hdr, code := some code } newToken now =
      ({ db with
          codes := db.codes.map (fun c => if c = ac then { c with used := true } else c),
          tokens := db.tokens ++
            [{ token := newToken, accountId := account.id, client_id := cid,
               expires_at := now + 3600 }] },
        .jsonResp [("access_token", .jstr newToken), ("token_type", .jstr "Bearer"),
                   ("expires_in", .jint 3600)]) := by
  simp only [token, hb, ha, hsec, hc, hacc, ne_eq, not_true_eq_false, if_false, hfresh,
    Bool.false_eq_true]

/-! ## C2 — Token endpoint happy path -/

/-- **C2.**  For every token-exchange request whose Basic header decodes to
the `client_id` and exact `client_secret` of the active AuthClient and whose
`code` names a stored AuthorizationCode with `used = false` and
`expires_at > now`: the endpoint marks that code used, creates a fresh
AccessToken for the code's Account and the supplied `client_id` with
`expires_at` one hour from now, and responds 200 with
`{access_token, token_type: "Bearer", expires_in: 3600}`. -/
theorem C2_token_exchange_success (db : DB) (hdr code newToken : String) (now : Int)
    (cid sec : String) (auth : OHSAuth) (ac : OAuthAuthorizationCode)
    (account : OHSAccount)
    (hb : parseBasicAuth hdr = some (cid, sec))
    (ha : db.auths.filter (fun a => a.client_id = cid && a.is_active) = [auth])
    (hsec : auth.client_secret = sec)
    (hc : db.codes.filter (fun c => c.code = code && !c.used && now < c.expires_at) = [ac])
    (hacc : db.accounts.filter (·.id = ac.accountId) = [account])
    (hfresh : db.tokens.any (·.token = newToken) = false) :
    token db { authorization := some hdr, code := some code } newToken now =
      ({ db with
          codes := db.codes.map (fun c => if c = ac then { c with used := true } else c),
          tokens := db.tokens ++
            [{ token := newToken, accountId := account.id, client_id := cid,
               expires_at := now + 3600 }] },
        .jsonResp [("access_token", .jstr newToken), ("token_type", .jstr "Bearer"),
                   ("expires_in", .jint 3600)]) :=
  token_success_eq db hdr code newToken now cid sec auth ac account hb ha hsec hc hacc hfresh

/-- **C2 witness.** -/
theorem C2_witness :
    parseBasicAuth wBasicHeader = some ("cid", "sec") ∧
    wDB.auths.filter (fun a => a.client_id = "cid" && a.is_active) = [wAuth] ∧
    wAuth.client_secret = "sec" ∧
    wDB.codes.filter
      (fun c => c.code = "CODE1" && !c.used && (500 : Int) < c.expires_at) = [wCode] ∧
    wDB.accounts.filter (·.id = wCode.accountId) = [wAcct] ∧
    wDB.tokens.any (·.token = "TOKN") = false ∧
    token wDB { authorization := some wBasicHeader, code := some "CODE1" } "TOKN" 500 =
      ({ wDB with
          codes := [{ wCode with used := true }],
          tokens := [{ token := "TOKN", accountId := 1, client_id := "cid",
                       expires_at := 4100 }] },
        .jsonResp [("access_token", .jstr "TOKN"), ("token_type", .jstr "Bearer"),
                   ("expires_in", .jint 3600)]) := by
  refine ⟨by decide, by decide, by decide, by decide, by decide, by decide, ?_⟩
  have h := C2_token_exchange_success wDB wBasicHeader "CODE1" "TOKN" 500 "cid" "sec"
    wAuth wCode wAcct (by decide) (by decide) (by decide) (by decide) (by decide)
    (by decide)
  rw [h]; rfl

/-! ## C10 — code redemption ignores the code's stored client_id -/

set_option linter.unusedVariables false in
/-- **C10.**  The token-exchange lookup filters only on the code value,
`used = false` and `expires_at > now` — never on the code's stored
`client_id` — so a valid unused unexpired code minted for a *different*
client id is still redeemed by the active client's credentials, and the
minted AccessToken carries the supplied `client_id`. -/
theorem C10_code_lookup_ignores_client (db : DB) (hdr code newToken : String)
    (now : Int) (cid sec : String) (auth : OHSAuth) (ac : OAuthAuthorizationCode)
    (account : OHSAccount)
    (hb : parseBasicAuth hdr = some (cid, sec))
    (ha : db.auths.filter (fun a => a.client_id = cid && a.is_active) = [auth])
    (hsec : auth.client_secret = sec)
    (hc : db.codes.filter (fun c => c.code = code && !c.used && now < c.expires_at) = [ac])
    (hacc : db.accounts.filter (·.id = ac.accountId) = [account])
    (hfresh : db.tokens.any (·.token = newToken) = false)
    (hne : ac.client_id ≠ cid) :
    (token db { authorization := some hdr, code := some code } newToken now).2 =
      .jsonResp [("access_token", .jstr newToken), ("token_type", .jstr "Bearer"),
                 ("expires_in", .jint 3600)] ∧
    (token db { authorization := some hdr, code := some code } newToken now).1.tokens =
      db.tokens ++
        [{ token := newToken, accountId := account.id, client_id := cid,
           expires_at := now + 3600 }] := by
  have h := token_success_eq db hdr code newToken now cid sec auth ac account
    hb ha hsec hc hacc hfresh
  rw [h]
  exact ⟨rfl, rfl⟩

/-- **C10 witness** (a code stored for client id `"other"`, redeemed with the
credentials of the active client `"cid"`). -/
theorem C10_witness :
    wXCode.client_id ≠ "cid" ∧
    (token wXDB { authorization := some wBasicHeader, code := some "CODE2" }
        "TOKX" 500).2 =
      .jsonResp [("access_token", .jstr "TOKX"), ("token_type", .jstr "Bearer"),
                 ("expires_in", .jint 3600)] := by
  refine ⟨by decide, ?_⟩
  exact (C10_code_lookup_ignores_client wXDB wBasicHeader "CODE2" "TOKX" 500 "cid" "sec"
    wAuth wXCode wAcct (by decide) (by decide) (by decide) (by decide) (by decide)
    (by decide) (by decide)).1

/-! ## C1 — authorization codes are single-use -/

/-- The login endpoint never touches the code table. -/
theorem login_codes_eq (db : DB) (req : LoginRequest) (now : Int) :
    (wordpress_login_notification db req now).1.codes = db.codes := by
  unfold wordpress_login_notification
  dsimp only
  repeat' split <;> try rfl

/-- The Session Bridge never touches the code table. -/
theorem authUser_codes_eq (db : DB) (sess : Session) (meta : ReqMeta) (uid : String) :
    (authenticate_user db sess meta uid).db.codes = db.codes := by
  unfold authenticate_user
  dsimp only
  repeat' split <;> try rfl

/-- The legacy callback never touches the code table. -/
theorem callback_codes_eq (db : DB) (meta : ReqMeta) (t : Option String) :
    (bridge_sso_callback db meta t).1.codes = db.codes := by
  unfold bridge_sso_callback
  dsimp only
  repeat' split <;> try rfl

set_option maxHeartbeats 1000000 in
/-- `authorize` either leaves the code table unchanged or appends a fresh row
whose code value did not occur before (the unique constraint on `code` turns
a duplicate insert into an uncaught `IntegrityError`). -/
theorem authorize_codes_cases (db : DB) (sess : Session) (user : UserCtx)
    (req : AuthorizeRequest) (nc : String) (now : Int) :
    (authorize db sess user req nc now).db.codes = db.codes ∨
    (db.codes.any (·.code = nc) = false ∧
      ∃ row : OAuthAuthorizationCode, row.code = nc ∧
        (authorize db sess user req nc now).db.codes = db.codes ++ [row]) := by
  simp only [authorize]
  repeat' split <;> try (left; rfl)
  all_goals
    right
    refine ⟨?_, _, rfl, rfl⟩
    simp only [Bool.not_eq_true] at *
    assumption

set_option maxHeartbeats 1000000 in
/-- The token endpoint either leaves the code table unchanged or marks one
row used. -/
theorem token_codes_cases (db : DB) (req : TokenRequest) (nt : String) (now : Int) :
    (token db req nt now).1.codes = db.codes ∨
    ∃ ac : OAuthAuthorizationCode,
      (token db req nt now).1.codes =
        db.codes.map (fun c => if c = ac then { c with used := true } else c) := by
  simp only [token]
  repeat' split <;> try (left; rfl)
  all_goals (right; exact ⟨_, rfl⟩)

/-- A store with the same code table keeps a code spent. -/
theorem codeSpent_of_codes_eq (db db' : DB) (code : String)
    (hcodes : db'.codes = db.codes) (h : codeSpent db code) : codeSpent db' code := by
  unfold codeSpent
  rw [hcodes]
  exact h

/-- Spent codes stay spent across any single request. -/
theorem applyOp_preserves_codeSpent (db : DB) (code : String) (op : Op)
    (h : codeSpent db code) : codeSpent (applyOp db op) code := by
  obtain ⟨⟨c0, hc0, hcode0⟩, hall⟩ := h
  have h' : codeSpent db code := ⟨⟨c0, hc0, hcode0⟩, hall⟩
  cases op with
  | opLogin req now => exact codeSpent_of_codes_eq db _ code (login_codes_eq db req now) h'
  | opAuthUser sess meta uid =>
    exact codeSpent_of_codes_eq db _ code (authUser_codes_eq db sess meta uid) h'
  | opCallback meta t =>
    exact codeSpent_of_codes_eq db _ code (callback_codes_eq db meta t) h'
  | opUserinfo hdr now => exact codeSpent_of_codes_eq db _ code rfl h'
  | opAuthorize sess user req nc now =>
    rcases authorize_codes_cases db sess user req nc now with heq | ⟨hany, row, hrow, heq⟩
    · exact codeSpent_of_codes_eq db _ code heq h'
    · show codeSpent (authorize db sess user req nc now).db code
      unfold codeSpent
      rw [heq]
      constructor
      · exact ⟨c0, List.mem_append_left _ hc0, hcode0⟩
      · intro c hc hcc
        rcases List.mem_append.mp hc with hmem | hmem
        · exact hall c hmem hcc
        · exfalso
          have hrc : c = row := by simpa using hmem
          have heqc : c0.code = nc := by rw [hcode0, ← hcc, hrc, hrow]
          have hany2 : db.codes.any (·.code = nc) = true :=
            List.any_eq_true.mpr ⟨c0, hc0, by simp [heqc]⟩
          rw [hany2] at hany
          exact Bool.true_eq_false.mp hany
  | opToken req nt now =>
    rcases token_codes_cases db req nt now with heq | ⟨ac, heq⟩
    · exact codeSpent_of_codes_eq db _ code heq h'
    · show codeSpent (token db req nt now).1 code
      unfold codeSpent
      rw [heq]
      constructor
      · refine ⟨if c0 = ac then { c0 with used := true } else c0,
          List.mem_map.mpr ⟨c0, hc0, rfl⟩, ?_⟩
        by_cases hcc : c0 = ac
        · subst hcc; simp [hcode0]
        · simp [hcc, hcode0]
      · intro c hc hcc
        rcases List.mem_map.mp hc with ⟨c1, hc1, hceq⟩
        by_cases h1 : c1 = ac
        · rw [← hceq]; simp [h1]
        · rw [← hceq] at hcc ⊢
          simp only [h1, if_false] at hcc ⊢
          exact hall c1 hc1 (by simpa using hcc)

/-- Spent codes stay spent across any sequence of requests. -/
theorem foldl_preserves_codeSpent (code : String) :
    ∀ (ops : List Op) (db : DB), codeSpent db code →
      codeSpent (ops.foldl applyOp db) code := by
  intro ops
  induction ops with
  | nil => intro db h; exact h
  | cons op rest ih =>
    intro db h
    exact ih (applyOp db op) (applyOp_preserves_codeSpent db code op h)

/-- On a store where the code is spent, any token exchange presenting it is
refused with a forbidden response and changes nothing. -/
theorem token_spent_forbidden (db : DB) (code : String) (h : codeSpent db code)
    (hdr nt : String) (now : Int) :
    (token db { authorization := some hdr, code := some code } nt now).1 = db ∧
    (token db { authorization := some hdr, code := some code } nt now).2.isForbidden
      = true := by
  have hfil : db.codes.filter (fun c => c.code = code && !c.used && now < c.expires_at)
      = [] := by
    rw [List.filter_eq_nil_iff]
    intro c hc
    by_cases hcode : c.code = code
    · have := h.2 c hc hcode
      simp [hcode, this]
    · simp [hcode]
  unfold token
  dsimp only
  cases hpb : parseBasicAuth hdr with
  | none => exact ⟨by simp [hpb], by simp [hpb, Response.isForbidden]⟩
  | some p =>
    obtain ⟨cid, sec⟩ := p
    simp only [hpb, hfil]
    repeat' split
    all_goals exact ⟨rfl, rfl⟩

/-- **C1.**  An AuthorizationCode is redeemable at most once: when a token
exchange succeeds (200, code marked used), then after *any* sequence of
further requests, every later token exchange presenting the same code — with
any Authorization header, in particular the correct Basic credentials of the
active client, and at any clock value — receives a forbidden response and
leaves the store unchanged (no AccessToken is created). -/
theorem C1_code_single_use (db : DB) (hdr code newToken : String) (now : Int)
    (cid sec : String) (auth : OHSAuth) (ac : OAuthAuthorizationCode)
    (account : OHSAccount)
    (hb : parseBasicAuth hdr = some (cid, sec))
    (ha : db.auths.filter (fun a => a.client_id = cid && a.is_active) = [auth])
    (hsec : auth.client_secret = sec)
    (hc : db.codes.filter (fun c => c.code = code && !c.used && now < c.expires_at) = [ac])
    (hacc : db.accounts.filter (·.id = ac.accountId) = [account])
    (hfresh : db.tokens.any (·.token = newToken) = false)
    (huniq : ∀ c ∈ db.codes, c.code = code → c = ac) :
    (token db { authorization := some hdr, code := some code } newToken now).2 =
      .jsonResp [("access_token", .jstr newToken), ("token_type", .jstr "Bearer"),
                 ("expires_in", .jint 3600)] ∧
    ∀ (ops : List Op) (hdr2 newTok2 : String) (now2 : Int),
      (token (ops.foldl applyOp
          (token db { authorization := some hdr, code := some code } newToken now).1)
        { authorization := some hdr2, code := some code } newTok2 now2).2.isForbidden
        = true ∧
      (token (ops.foldl applyOp
          (token db { authorization := some hdr, code := some code } newToken now).1)
        { authorization := some hdr2, code := some code } newTok2 now2).1 =
        ops.foldl applyOp
          (token db { authorization := some hdr, code := some code } newToken now).1 := by
  have hEq := token_success_eq db hdr code newToken now cid sec auth ac account
    hb ha hsec hc hacc hfresh
  constructor
  · rw [hEq]
  · intro ops hdr2 newTok2 now2
    have hacMem : ac ∈ db.codes ∧ ac.code = code := by
      have hself : ac ∈ db.codes.filter
          (fun c => c.code = code && !c.used && now < c.expires_at) := by
        rw [hc]; exact List.mem_singleton.mpr rfl
      have hmem := List.mem_filter.mp hself
      refine ⟨hmem.1, ?_⟩
      have hp := hmem.2
      simp only [Bool.and_eq_true, decide_eq_true_eq] at hp
      exact hp.1.1
    have hspent1 :
        codeSpent (token db { authorization := some hdr, code := some code }
          newToken now).1 code := by
      rw [hEq]
      unfold codeSpent
      constructor
      · exact ⟨{ ac with used := true },
          List.mem_map.mpr ⟨ac, hacMem.1, by simp⟩, by simpa using hacMem.2⟩
      · intro c hcmem hcc
        rcases List.mem_map.mp hcmem with ⟨c1, hc1, hceq⟩
        by_cases h1 : c1 = ac
        · rw [← hceq]; simp [h1]
        · rw [← hceq] at hcc
          simp only [h1, if_false] at hcc
          exact absurd (huniq c1 hc1 hcc) h1
    have hspent2 := foldl_preserves_codeSpent code ops _ hspent1
    exact ⟨(token_spent_forbidden _ code hspent2 hdr2 newTok2 now2).2,
           (token_spent_forbidden _ code hspent2 hdr2 newTok2 now2).1⟩

/-- **C1 witness**: redeem `CODE1`, replay the exchange once (second call),
then observe that a third call is still forbidden. -/
theorem C1_witness :
    (∀ c ∈ wDB.codes, c.code = "CODE1" → c = wCode) ∧
    (token ([Op.opToken { authorization := some wBasicHeader, code := some "CODE1" }
          "TOK2" 600].foldl applyOp
        (token wDB { authorization := some wBasicHeader, code := some "CODE1" }
          "TOKN" 500).1)
      { authorization := some wBasicHeader, code := some "CODE1" } "TOK3" 700).2.isForbidden
      = true :=
  ⟨by decide,
   ((C1_code_single_use wDB wBasicHeader "CODE1" "TOKN" 500 "cid" "sec" wAuth wCode
      wAcct (by decide) (by decide) (by decide) (by decide) (by decide) (by decide)
      (by decide)).2
    [Op.opToken { authorization := some wBasicHeader, code := some "CODE1" } "TOK2" 600]
    wBasicHeader "TOK3" 700).1⟩

/-! ## Login notification: shared evaluation -/

/-- An HMAC hex digest is never the empty character list. -/
theorem hmacHexL_ne_nil (k m : List Char) : hmacHexL k m ≠ [] := by
  unfold hmacHexL bytesToHexChars hmacSha256 sha256Bytes beBytes4
  simp [byteToHex]

/-- The login signature string is never empty. -/
theorem loginSig_ne_empty (secret u e fn ln sub : String) (ts : Int) :
    loginSig secret u e fn ln sub ts ≠ "" := by
  unfold loginSig
  intro h
  exact hmacHexL_ne_nil secret.data (urlencodeJ (loginPayload u e fn ln sub ts))
    (congrArg String.data h)

set_option maxHeartbeats 1000000 in
/-- Full behaviour of the login endpoint on a validly signed body: given an
active client, the outcome is the `Token expired` rejection outside the
300-second window and otherwise the `unique_id`-keyed upsert plus an
AccessLog and a SyncTask append. -/
theorem login_signed_eval (db : DB) (meta : ReqMeta) (now ts : Int)
    (u e fn ln sub : String) (auth : OHSAuth)
    (hauth : (db.auths.filter (·.is_active)).head? = some auth)
    (hu : u ≠ "") :
    wordpress_login_notification db
      { body := some (signedLoginBody auth.client_secret u e fn ln sub ts),
        meta := meta } now =
      if 300 < |now - ts| then (db, .badRequest "Token expired")
      else
        match db.accounts.filter (·.unique_id = u) with
        | [] =>
          ({ db with
              accounts := db.accounts ++
                [{ id := db.nextAccountId, unique_id := u,
                   bridge_subaccount_id := sub, user_email := e, first_name := fn,
                   last_name := ln, is_active := true }],
              nextAccountId := db.nextAccountId + 1,
              logs := db.logs ++
                [{ accountId := db.nextAccountId, ip_address := get_client_ip meta,
                   user_agent := meta.userAgent, success := true }],
              tasks := db.tasks ++
                [{ accountId := db.nextAccountId, task_type := "U", status := "P" }] },
            .ok "OK")
        | [acct0] =>
          ({ db with
              accounts := db.accounts.map (fun a =>
                if a = acct0 then
                  { acct0 with
                    user_email := e, first_name := fn, last_name := ln,
                    bridge_subaccount_id := sub }
                else a),
              logs := db.logs ++
                [{ accountId := acct0.id, ip_address := get_client_ip meta,
                   user_agent := meta.userAgent, success := true }],
              tasks := db.tasks ++
                [{ accountId := acct0.id, task_type := "U", status := "P" }] },
            .ok "OK")
        | _ => (db, .badRequest "Error: get() returned more than one OHSAccount") := by
  have hsig : ({ data := hmacHexL auth.client_secret.data (urlencodeJ
      [("unique_id", JValue.jstr u), ("email", JValue.jstr e),
       ("first_name", JValue.jstr fn), ("last_name", JValue.jstr ln),
       ("bridge_subaccount_id", JValue.jstr sub),
       ("timestamp", JValue.jint ts)]) } : String) ≠ "" :=
    loginSig_ne_empty auth.client_secret u e fn ln sub ts
  unfold wordpress_login_notification signedLoginBody loginPayload loginSig
  simp only [hauth]
  simp [normalizeObj, dictInsertJ, jsonGet, JValue.truthy, JValue.asString,
    JValue.pyInt, hsig, hu, loginPayload]

/-- Updating the unique row matched by a filter leaves exactly the updated
row matched. -/
theorem filter_map_update {α : Type} [DecidableEq α] (p : α → Bool) (x y : α)
    (hy : p y = true) :
    ∀ l : List α, l.filter p = [x] →
      (l.map (fun a => if a = x then y else a)).filter p = [y] := by
  intro l
  induction l with
  | nil => intro h; simp at h
  | cons a t ih =>
    intro h
    by_cases hpa : p a = true
    · rw [List.filter_cons_of_pos hpa] at h
      have hax : a = x := by
        have := congrArg (·.head?) h
        simpa using this
      have htf : t.filter p = [] := by
        have := congrArg (·.tail) h
        simpa [hax] using this
      subst hax
      have hmapped : (t.map (fun b => if b = a then y else b)).filter p = [] := by
        rw [List.filter_eq_nil_iff]
        intro b hb
        rcases List.mem_map.mp hb with ⟨b0, hb0, hbeq⟩
        have hb0n : ¬ p b0 = true := by
          have := List.filter_eq_nil_iff.mp htf b0 hb0
          simpa using this
        by_cases hba : b0 = a
        · exact absurd (hba ▸ hpa) hb0n
        · rw [← hbeq]; simp only [hba, if_false]; simpa using hb0n
      simp [List.filter_cons_of_pos hy, hmapped]
    · rw [List.filter_cons_of_neg hpa] at h
      have hpx : p x = true := by
        have hxmem : x ∈ t.filter p := by rw [h]; exact List.mem_singleton.mpr rfl
        exact (List.mem_filter.mp hxmem).2
      have hax : ¬ a = x := fun heq => hpa (heq ▸ hpx)
      simp only [List.map_cons, hax, if_false]
      rw [List.filter_cons_of_neg hpa]
      exact ih h

/-! ## C4 — replay window -/

/-- **C4.**  For a validly signed login notification (active client present):
if `|now − timestamp| > 300` the request is rejected as expired with a 400
and nothing changes; if `|now − timestamp| ≤ 300` it is accepted (`200 OK`)
and the account upsert is performed, leaving exactly one row keyed by the
payload's `unique_id` carrying the payload's fields. -/
theorem C4_replay_window (db : DB) (meta : ReqMeta) (now ts : Int)
    (u e fn ln sub : String) (auth : OHSAuth)
    (hauth : (db.auths.filter (·.is_active)).head? = some auth)
    (hu : u ≠ "")
    (hcase : db.accounts.filter (·.unique_id = u) = [] ∨
      ∃ a0, db.accounts.filter (·.unique_id = u) = [a0]) :
    (300 < |now - ts| →
      loginStep db meta auth.client_secret u e fn ln sub ts now =
        (db, .badRequest "Token expired")) ∧
    (|now - ts| ≤ 300 →
      (loginStep db meta auth.client_secret u e fn ln sub ts now).2 = .ok "OK" ∧
      ∃ a, (loginStep db meta auth.client_secret u e fn ln sub ts now).1.accounts.filter
          (·.unique_id = u) = [a] ∧
        a.user_email = e ∧ a.first_name = fn ∧ a.last_name = ln ∧
        a.bridge_subaccount_id = sub) := by
  have hEv := login_signed_eval db meta now ts u e fn ln sub auth hauth hu
  unfold loginStep
  constructor
  · intro hgt
    rw [hEv, if_pos hgt]
  · intro hle
    have hnot : ¬ 300 < |now - ts| := not_lt.mpr hle
    rw [hEv, if_neg hnot]
    rcases hcase with hnil | ⟨a0, ha0⟩
    · rw [hnil]
      refine ⟨rfl,
        ⟨{ id := db.nextAccountId, unique_id := u, bridge_subaccount_id := sub,
           user_email := e, first_name := fn, last_name := ln, is_active := true },
         ?_, rfl, rfl, rfl, rfl⟩⟩
      rw [List.filter_append, hnil]
      simp
    · rw [ha0]
      have hpa0 : a0.unique_id = u := by
        have hxmem : a0 ∈ db.accounts.filter (·.unique_id = u) := by
          rw [ha0]; exact List.mem_singleton.mpr rfl
        simpa using (List.mem_filter.mp hxmem).2
      refine ⟨rfl,
        ⟨{ a0 with
           user_email := e, first_name := fn, last_name := ln,
           bridge_subaccount_id := sub },
         ?_, rfl, rfl, rfl, rfl⟩⟩
      exact filter_map_update _ a0 _ (by simpa using hpa0) db.accounts ha0

/-- **C4 witness**: `timestamp = now − 301` is rejected, `now − 299` is
accepted, at `now = 1000`. -/
theorem C4_witness :
    ((wDB.auths.filter (·.is_active)).head? = some wAuth ∧
      loginStep wDB wMeta wAuth.client_secret "U-9" "a@b.c" "Jo" "Do" "s1" 699 1000 =
        (wDB, .badRequest "Token expired")) ∧
    (loginStep wDB wMeta wAuth.client_secret "U-9" "a@b.c" "Jo" "Do" "s1" 701 1000).2 =
      .ok "OK" :=
  ⟨⟨by decide,
    (C4_replay_window wDB wMeta 1000 699 "U-9" "a@b.c" "Jo" "Do" "s1" wAuth
      (by decide) (by decide) (Or.inl (by decide))).1 (by decide)⟩,
   ((C4_replay_window wDB wMeta 1000 701 "U-9" "a@b.c" "Jo" "Do" "s1" wAuth
      (by decide) (by decide) (Or.inl (by decide))).2 (by decide)).1⟩

/-! ## C6 — idempotent last-write-wins upsert -/

/-- **C6.**  Two validly signed, fresh login notifications with the same
`unique_id` (any timestamps inside the window) leave exactly one Account row
keyed by that `unique_id`, whose `email`, `first_name`, `last_name` and
subaccount fields equal the *second* payload's values — an unconditional
overwrite — and append exactly two AccessLog rows. -/
theorem C6_upsert_last_write_wins (db : DB) (meta1 meta2 : ReqMeta)
    (now1 now2 ts1 ts2 : Int) (u e1 fn1 ln1 sub1 e2 fn2 ln2 sub2 : String)
    (auth : OHSAuth)
    (hauth : (db.auths.filter (·.is_active)).head? = some auth)
    (hu : u ≠ "")
    (h1 : |now1 - ts1| ≤ 300) (h2 : |now2 - ts2| ≤ 300)
    (hcase : db.accounts.filter (·.unique_id = u) = [] ∨
      ∃ a0, db.accounts.filter (·.unique_id = u) = [a0]) :
    (loginStep db meta1 auth.client_secret u e1 fn1 ln1 sub1 ts1 now1).2 = .ok "OK" ∧
    (loginStep (loginStep db meta1 auth.client_secret u e1 fn1 ln1 sub1 ts1 now1).1
      meta2 auth.client_secret u e2 fn2 ln2 sub2 ts2 now2).2 = .ok "OK" ∧
    (∃ a, (loginStep (loginStep db meta1 auth.client_secret u e1 fn1 ln1 sub1 ts1 now1).1
        meta2 auth.client_secret u e2 fn2 ln2 sub2 ts2 now2).1.accounts.filter
          (·.unique_id = u) = [a] ∧
      a.user_email = e2 ∧ a.first_name = fn2 ∧ a.last_name = ln2 ∧
      a.bridge_subaccount_id = sub2) ∧
    (loginStep (loginStep db meta1 auth.client_secret u e1 fn1 ln1 sub1 ts1 now1).1
      meta2 auth.client_secret u e2 fn2 ln2 sub2 ts2 now2).1.logs.length =
      db.logs.length + 2 := by
  have hEv1 := login_signed_eval db meta1 now1 ts1 u e1 fn1 ln1 sub1 auth hauth hu
  have hnot1 : ¬ 300 < |now1 - ts1| := not_lt.mpr h1
  have hnot2 : ¬ 300 < |now2 - ts2| := not_lt.mpr h2
  unfold loginStep
  rw [hEv1, if_neg hnot1]
  rcases hcase with hnil | ⟨a0, ha0⟩
  · rw [hnil]
    set db1 : DB := { db with
      accounts := db.accounts ++
        [{ id := db.nextAccountId, unique_id := u,
           bridge_subaccount_id := sub1, user_email := e1, first_name := fn1,
           last_name := ln1, is_active := true }],
      nextAccountId := db.nextAccountId + 1,
      logs := db.logs ++
        [{ accountId := db.nextAccountId, ip_address := get_client_ip meta1,
           user_agent := meta1.userAgent, success := true }],
      tasks := db.tasks ++
        [{ accountId := db.nextAccountId, task_type := "U", status := "P" }] } with hdb1
    have hauth1 : (db1.auths.filter (·.is_active)).head? = some auth := hauth
    have hfil1 : db1.accounts.filter (·.unique_id = u) =
        [{ id := db.nextAccountId, unique_id := u,
           bridge_subaccount_id := sub1, user_email := e1, first_name := fn1,
           last_name := ln1, is_active := true }] := by
      show (db.accounts ++ _).filter _ = _
      rw [List.filter_append, hnil]
      simp
    have hEv2 := login_signed_eval db1 meta2 now2 ts2 u e2 fn2 ln2 sub2 auth hauth1 hu
    rw [hEv2, if_neg hnot2, hfil1]
    refine ⟨rfl, rfl,
      ⟨{ id := db.nextAccountId, unique_id := u, bridge_subaccount_id := sub2,
         user_email := e2, first_name := fn2, last_name := ln2, is_active := true },
       ?_, rfl, rfl, rfl, rfl⟩, ?_⟩
    · exact filter_map_update _ _ _ (by simp) db1.accounts hfil1
    · show (db1.logs ++ _).length = db.logs.length + 2
      rw [hdb1]
      simp
  · rw [ha0]
    have hpa0 : a0.unique_id = u := by
      have hxmem : a0 ∈ db.accounts.filter (·.unique_id = u) := by
        rw [ha0]; exact List.mem_singleton.mpr rfl
      simpa using (List.mem_filter.mp hxmem).2
    set a1 : OHSAccount := { a0 with
      user_email := e1, first_name := fn1, last_name := ln1,
      bridge_subaccount_id := sub1 } with ha1
    set db1 : DB := { db with
      accounts := db.accounts.map (fun a => if a = a0 then a1 else a),
      logs := db.logs ++
        [{ accountId := a0.id, ip_address := get_client_ip meta1,
           user_agent := meta1.userAgent, success := true }],
      tasks := db.tasks ++
        [{ accountId := a0.id, task_type := "U", status := "P" }] } with hdb1
    have hauth1 : (db1.auths.filter (·.is_active)).head? = some auth := hauth
    have hfil1 : db1.accounts.filter (·.unique_id = u) = [a1] := by
      show (db.accounts.map _).filter _ = _
      exact filter_map_update _ a0 a1 (by simpa [ha1] using hpa0) db.accounts ha0
    have hEv2 := login_signed_eval db1 meta2 now2 ts2 u e2 fn2 ln2 sub2 auth hauth1 hu
    rw [hEv2, if_neg hnot2, hfil1]
    refine ⟨rfl, rfl,
      ⟨{ a1 with
         user_email := e2, first_name := fn2, last_name := ln2,
         bridge_subaccount_id := sub2 },
       ?_, rfl, rfl, rfl, rfl⟩, ?_⟩
    · exact filter_map_update _ a1 _ (by simpa [ha1] using hpa0) db1.accounts hfil1
    · show (db1.logs ++ _).length = db.logs.length + 2
      rw [hdb1]
      simp

/-- **C6 witness**: the same `unique_id` submitted twice, second payload's
fields win, two log rows appended. -/
theorem C6_witness :
    ((wDB.auths.filter (·.is_active)).head? = some wAuth ∧
      (1000 : Int) - 900 ≤ 300 ∧ (1100 : Int) - 1000 ≤ 300) ∧
    (loginStep (loginStep wDB wMeta wAuth.client_secret "U-9" "a@b.c" "Jo" "Do" "s1"
        900 1000).1
      wMeta wAuth.client_secret "U-9" "new@b.c" "Ann" "Ex" "s2" 1000 1100).2 = .ok "OK" := by
  refine ⟨⟨by decide, by decide, by decide⟩, ?_⟩
  exact (C6_upsert_last_write_wins wDB wMeta wMeta 1000 1100 900 1000 "U-9"
    "a@b.c" "Jo" "Do" "s1" "new@b.c" "Ann" "Ex" "s2" wAuth (by decide) (by decide)
    (by decide) (by decide) (Or.inl (by decide))).2.1

/-! ## Authorization endpoint: identity-recovery case lemmas -/

/-- Session account id present and resolvable: the code is minted for that
account. -/
theorem authorize_aid_found (db : DB) (sess : Session) (user : UserCtx)
    (cid ruri st nc : String) (now : Int) (aid : Nat) (a : OHSAccount)
    (auth : OHSAuth)
    (hsid : sess.ohs_account_id = some aid)
    (hfa : db.accounts.filter (·.id = aid) = [a])
    (hauth : (db.auths.filter (·.is_active)).head? = some auth)
    (hfresh : db.codes.any (·.code = nc) = false) :
    (authorize db sess user
        { client_id := some cid, redirect_uri := some ruri, state := some st }
        nc now).db.codes =
      db.codes ++
        [{ code := nc, accountId := a.id, client_id := cid,
           expires_at := now + 300, used := false }] := by
  simp only [authorize, hsid, hfa, hauth, hfresh]
  simp only [Bool.false_eq_true, if_false, ite_false]
  repeat' split
  all_goals rfl

/-- Session account id present but stale: the `Http404` propagates as a 404
page and nothing changes. -/
theorem authorize_aid_missing (db : DB) (sess : Session) (user : UserCtx)
    (cid ruri st nc : String) (now : Int) (aid : Nat)
    (hsid : sess.ohs_account_id = some aid)
    (hfa : db.accounts.filter (·.id = aid) = []) :
    authorize db sess user
        { client_id := some cid, redirect_uri := some ruri, state := some st }
        nc now =
      { db := db, session := sess,
        response := .notFound "No OHSAccount matches the given query." } := by
  simp only [authorize, hsid, hfa]

/-- No session account id, session unique id present and resolvable. -/
theorem authorize_uid_found (db : DB) (sess : Session) (user : UserCtx)
    (cid ruri st nc : String) (now : Int) (u : String) (a : OHSAccount)
    (auth : OHSAuth)
    (hsid : sess.ohs_account_id = none)
    (huid : sess.ohs_unique_id = some u)
    (hfa : db.accounts.filter (·.unique_id = u) = [a])
    (hauth : (db.auths.filter (·.is_active)).head? = some auth)
    (hfresh : db.codes.any (·.code = nc) = false) :
    (authorize db sess user
        { client_id := some cid, redirect_uri := some ruri, state := some st }
        nc now).db.codes =
      db.codes ++
        [{ code := nc, accountId := a.id, client_id := cid,
           expires_at := now + 300, used := false }] := by
  simp only [authorize, hsid, huid, hfa, hauth, hfresh, reduceCtorEq, and_false,
    if_false, ite_false, Bool.false_eq_true]
  repeat' split
  all_goals rfl

/-- No session account id, session unique id present but stale: 404. -/
theorem authorize_uid_missing (db : DB) (sess : Session) (user : UserCtx)
    (cid ruri st nc : String) (now : Int) (u : String)
    (hsid : sess.ohs_account_id = none)
    (huid : sess.ohs_unique_id = some u)
    (hfa : db.accounts.filter (·.unique_id = u) = []) :
    authorize db sess user
        { client_id := some cid, redirect_uri := some ruri, state := some st }
        nc now =
      { db := db, session := sess,
        response := .notFound "No OHSAccount matches the given query." } := by
  simp only [authorize, hsid, huid, hfa]
  simp only [reduceCtorEq, and_false, if_false, ite_false, hfa]

/-- No session identity; the `state` parameter decodes to a resolvable
unique id: the code is minted for that account. -/
theorem authorize_state_found (db : DB) (sess : Session) (user : UserCtx)
    (cid ruri st nc : String) (now : Int) (u : String) (a : OHSAccount)
    (auth : OHSAuth)
    (hsid : sess.ohs_account_id = none)
    (huid : sess.ohs_unique_id = none)
    (hst : st ≠ "")
    (hdec : stateDecodedUid db st = some u)
    (hfa : db.accounts.filter (·.unique_id = u) = [a])
    (hauth : (db.auths.filter (·.is_active)).head? = some auth)
    (hfresh : db.codes.any (·.code = nc) = false) :
    (authorize db sess user
        { client_id := some cid, redirect_uri := some ruri, state := some st }
        nc now).db.codes =
      db.codes ++
        [{ code := nc, accountId := a.id, client_id := cid,
           expires_at := now + 300, used := false }] := by
  simp only [authorize, hsid, huid, hst, hdec, hfa, hauth, hfresh, reduceCtorEq,
    and_true, ne_eq, not_false_eq_true, if_true, ite_true, Bool.false_eq_true,
    if_false, ite_false]
  repeat' split
  all_goals rfl

/-- No session identity and `state` does not resolve; the caller is
authenticated and the email resolves: the code is minted for that account. -/
theorem authorize_email_found (db : DB) (sess : Session) (user : UserCtx)
    (cid ruri st nc : String) (now : Int) (a : OHSAccount) (auth : OHSAuth)
    (hsid : sess.ohs_account_id = none)
    (huid : sess.ohs_unique_id = none)
    (hdec : st = "" ∨ stateDecodedUid db st = none)
    (hua : user.is_authenticated = true)
    (hfa : db.accounts.filter (·.user_email = user.email) = [a])
    (hauth : (db.auths.filter (·.is_active)).head? = some auth)
    (hfresh : db.codes.any (·.code = nc) = false) :
    (authorize db sess user
        { client_id := some cid, redirect_uri := some ruri, state := some st }
        nc now).db.codes =
      db.codes ++
        [{ code := nc, accountId := a.id, client_id := cid,
           expires_at := now + 300, used := false }] := by
  rcases hdec with hst | hdec
  · simp only [authorize, hsid, huid, hst, hua, hfa, hauth, hfresh, ne_eq,
      not_true_eq_false, false_and, if_false, ite_false, if_true, ite_true,
      Bool.false_eq_true]
    repeat' split
    all_goals rfl
  · simp only [authorize, hsid, huid, hdec, hua, hfa, hauth, hfresh, reduceCtorEq,
      and_true, ne_eq, not_false_eq_true, if_true, ite_true, ite_self,
      Bool.false_eq_true, if_false, ite_false]
    repeat' split
    all_goals rfl

/-- Authenticated caller whose email matches no account: 404. -/
theorem authorize_email_missing (db : DB) (sess : Session) (user : UserCtx)
    (cid ruri st nc : String) (now : Int)
    (hsid : sess.ohs_account_id = none)
    (huid : sess.ohs_unique_id = none)
    (hdec : st = "" ∨ stateDecodedUid db st = none)
    (hua : user.is_authenticated = true)
    (hfa : db.accounts.filter (·.user_email = user.email) = []) :
    authorize db sess user
        { client_id := some cid, redirect_uri := some ruri, state := some st }
        nc now =
      { db := db, session := sess,
        response := .notFound "No OHSAccount matches the given query." } := by
  rcases hdec with hst | hdec
  · simp only [authorize, hsid, huid, hst, hua, hfa, ne_eq, not_true_eq_false,
      false_and, if_false, ite_false, if_true, ite_true]
  · simp only [authorize, hsid, huid, hdec, hua, hfa, reduceCtorEq, and_true,
      ne_eq, not_false_eq_true, if_true, ite_true, ite_self, if_false, ite_false]

/-- No identity at all (no session data, state does not resolve, caller not
authenticated): forbidden. -/
theorem authorize_unauth_forbidden (db : DB) (sess : Session) (user : UserCtx)
    (cid ruri st nc : String) (now : Int)
    (hsid : sess.ohs_account_id = none)
    (huid : sess.ohs_unique_id = none)
    (hdec : st = "" ∨ stateDecodedUid db st = none)
    (hua : user.is_authenticated = false) :
    authorize db sess user
        { client_id := some cid, redirect_uri := some ruri, state := some st }
        nc now =
      { db := db, session := sess,
        response :=
          .forbidden "User session not found. Please start from WordPress login." } := by
  rcases hdec with hst | hdec
  · simp only [authorize, hsid, huid, hst, hua, ne_eq, not_true_eq_false,
      false_and, if_false, ite_false, if_true, ite_true, Bool.false_eq_true]
  · simp only [authorize, hsid, huid, hdec, hua, reduceCtorEq, and_true, ne_eq,
      not_false_eq_true, if_true, ite_true, ite_self, if_false, ite_false,
      Bool.false_eq_true]

/-- An account was resolved but no active AuthClient exists: 400 bad
request. -/
theorem authorize_no_active_client (db : DB) (sess : Session) (user : UserCtx)
    (cid ruri st nc : String) (now : Int) (aid : Nat) (a : OHSAccount)
    (hsid : sess.ohs_account_id = some aid)
    (hfa : db.accounts.filter (·.id = aid) = [a])
    (hauth : (db.auths.filter (·.is_active)).head? = none) :
    authorize db sess user
        { client_id := some cid, redirect_uri := some ruri, state := some st }
        nc now =
      { db := db, session := sess,
        response := .badRequest "Authentication not configured" } := by
  simp only [authorize, hsid, hfa, hauth]

/-! ## C3 — identity recovery order at the Authorization Endpoint -/

/-- **C3 counterexample.**  The claim says that when none of the four
strategies resolves an Account the response is forbidden; but for an
authenticated caller whose email matches no Account the code raises an
uncaught `Http404` and the caller receives a 404 page, not a 403. -/
theorem C3_counterexample :
    (authorize wDB emptySession { is_authenticated := true, email := "ghost@x.y" }
        { client_id := some "cid", redirect_uri := some "https://t.bridgeapp.com/cb",
          state := some "abc" } "NEWC" 0).response =
      .notFound "No OHSAccount matches the given query." ∧
    (authorize wDB emptySession { is_authenticated := true, email := "ghost@x.y" }
        { client_id := some "cid", redirect_uri := some "https://t.bridgeapp.com/cb",
          state := some "abc" } "NEWC" 0).response.isForbidden = false := by
  constructor <;> rfl

/-- **C3 (amended).**  For every authorize request carrying `client_id`,
`redirect_uri` and `state` (with an active AuthClient and a fresh code
value), the Account is resolved by the first *present* strategy in the fixed
order (a) session account id, (b) session `unique_id`, (c) an identifier
decoded from `state` (the part after `|`, or the bare value when it contains
`@` or is longer than 10 characters) — used only when it actually resolves —
then (d) the authenticated principal's email; minting the code for the
resolved Account.  When a committed lookup ((a), (b) or (d)) finds no row the
response is a 404 (uncaught `Http404`), and only when no strategy applies at
all (no session identity, state unresolvable, caller unauthenticated) is the
response forbidden. -/
theorem C3_authorize_identity_recovery (db : DB) (sess : Session) (user : UserCtx)
    (cid ruri st nc : String) (now : Int) (auth : OHSAuth)
    (hauth : (db.auths.filter (·.is_active)).head? = some auth)
    (hfresh : db.codes.any (·.code = nc) = false) :
    (∀ (aid : Nat) (a : OHSAccount), sess.ohs_account_id = some aid →
      db.accounts.filter (·.id = aid) = [a] →
      (authorize db sess user
          { client_id := some cid, redirect_uri := some ruri, state := some st }
          nc now).db.codes =
        db.codes ++
          [{ code := nc, accountId := a.id, client_id := cid,
             expires_at := now + 300, used := false }]) ∧
    (∀ aid : Nat, sess.ohs_account_id = some aid →
      db.accounts.filter (·.id = aid) = [] →
      authorize db sess user
          { client_id := some cid, redirect_uri := some ruri, state := some st }
          nc now =
        { db := db, session := sess,
          response := .notFound "No OHSAccount matches the given query." }) ∧
    (∀ (u : String) (a : OHSAccount), sess.ohs_account_id = none →
      sess.ohs_unique_id = some u →
      db.accounts.filter (·.unique_id = u) = [a] →
      (authorize db sess user
          { client_id := some cid, redirect_uri := some ruri, state := some st }
          nc now).db.codes =
        db.codes ++
          [{ code := nc, accountId := a.id, client_id := cid,
             expires_at := now + 300, used := false }]) ∧
    (∀ u : String, sess.ohs_account_id = none → sess.ohs_unique_id = some u →
      db.accounts.filter (·.unique_id = u) = [] →
      authorize db sess user
          { client_id := some cid, redirect_uri := some ruri, state := some st }
          nc now =
        { db := db, session := sess,
          response := .notFound "No OHSAccount matches the given query." }) ∧
    (∀ (u : String) (a : OHSAccount), sess.ohs_account_id = none →
      sess.ohs_unique_id = none → st ≠ "" → stateDecodedUid db st = some u →
      db.accounts.filter (·.unique_id = u) = [a] →
      (authorize db sess user
          { client_id := some cid, redirect_uri := some ruri, state := some st }
          nc now).db.codes =
        db.codes ++
          [{ code := nc, accountId := a.id, client_id := cid,
             expires_at := now + 300, used := false }]) ∧
    (∀ a : OHSAccount, sess.ohs_account_id = none → sess.ohs_unique_id = none →
      (st = "" ∨ stateDecodedUid db st = none) → user.is_authenticated = true →
      db.accounts.filter (·.user_email = user.email) = [a] →
      (authorize db sess user
          { client_id := some cid, redirect_uri := some ruri, state := some st }
          nc now).db.codes =
        db.codes ++
          [{ code := nc, accountId := a.id, client_id := cid,
             expires_at := now + 300, used := false }]) ∧
    (sess.ohs_account_id = none → sess.ohs_unique_id = none →
      (st = "" ∨ stateDecodedUid db st = none) → user.is_authenticated = true →
      db.accounts.filter (·.user_email = user.email) = [] →
      authorize db sess user
          { client_id := some cid, redirect_uri := some ruri, state := some st }
          nc now =
        { db := db, session := sess,
          response := .notFound "No OHSAccount matches the given query." }) ∧
    (sess.ohs_account_id = none → sess.ohs_unique_id = none →
      (st = "" ∨ stateDecodedUid db st = none) → user.is_authenticated = false →
      authorize db sess user
          { client_id := some cid, redirect_uri := some ruri, state := some st }
          nc now =
        { db := db, session := sess,
          response :=
            .forbidden "User session not found. Please start from WordPress login." }) := by
  refine ⟨?_, ?_, ?_, ?_, ?_, ?_, ?_, ?_⟩
  · intro aid a h1 h2
    exact authorize_aid_found db sess user cid ruri st nc now aid a auth h1 h2 hauth hfresh
  · intro aid h1 h2
    exact authorize_aid_missing db sess user cid ruri st nc now aid h1 h2
  · intro u a h1 h2 h3
    exact authorize_uid_found db sess user cid ruri st nc now u a auth h1 h2 h3 hauth hfresh
  · intro u h1 h2 h3
    exact authorize_uid_missing db sess user cid ruri st nc now u h1 h2 h3
  · intro u a h1 h2 h3 h4 h5
    exact authorize_state_found db sess user cid ruri st nc now u a auth h1 h2 h3 h4 h5
      hauth hfresh
  · intro a h1 h2 h3 h4 h5
    exact authorize_email_found db sess user cid ruri st nc now a auth h1 h2 h3 h4 h5
      hauth hfresh
  · intro h1 h2 h3 h4 h5
    exact authorize_email_missing db sess user cid ruri st nc now h1 h2 h3 h4 h5
  · intro h1 h2 h3 h4
    exact authorize_unauth_forbidden db sess user cid ruri st nc now h1 h2 h3 h4

/-- **C3 witness**: the `state` recovery hint (strategy (c)) resolves the
account and the code is minted for it; with no identity at all the response
is forbidden. -/
theorem C3_witness :
    ((wDB.auths.filter (·.is_active)).head? = some wAuth ∧
      stateDecodedUid wDB "/learner/courses|2019513-AIR-G-48" = some "2019513-AIR-G-48" ∧
      (authorize wDB emptySession { is_authenticated := false, email := "" }
          { client_id := some "cid", redirect_uri := some "https://t.bridgeapp.com/cb",
            state := some "/learner/courses|2019513-AIR-G-48" } "NEWC" 0).db.codes =
        wDB.codes ++
          [{ code := "NEWC", accountId := 1, client_id := "cid",
             expires_at := 300, used := false }]) ∧
    authorize wDB emptySession { is_authenticated := false, email := "" }
        { client_id := some "cid", redirect_uri := some "https://t.bridgeapp.com/cb",
          state := some "abc" } "NEWC" 0 =
      { db := wDB, session := emptySession,
        response :=
          .forbidden "User session not found. Please start from WordPress login." } := by
  refine ⟨⟨by decide, by decide, ?_⟩, ?_⟩
  · exact (C3_authorize_identity_recovery wDB emptySession
      { is_authenticated := false, email := "" } "cid" "https://t.bridgeapp.com/cb"
      "/learner/courses|2019513-AIR-G-48" "NEWC" 0 wAuth (by decide)
      (by decide)).2.2.2.2.1 "2019513-AIR-G-48" wAcct rfl rfl (by decide) (by decide)
      (by decide)
  · exact (C3_authorize_identity_recovery wDB emptySession
      { is_authenticated := false, email := "" } "cid" "https://t.bridgeapp.com/cb"
      "abc" "NEWC" 0 wAuth (by decide) (by decide)).2.2.2.2.2.2.2 rfl rfl
      (Or.inr (by decide)) rfl

/-! ## C8 — error classes for missing entities in the Authorization Endpoint -/

/-- **C8 counterexample.**  The claim says a missing Account or a missing
active AuthClient yields a forbidden-class response; on the code a stale
session account id yields an uncaught `Http404` (404), and a missing active
AuthClient yields a 400 bad request. -/
theorem C8_counterexample :
    ((authorize wDB wSessStale { is_authenticated := false, email := "" }
        { client_id := some "cid", redirect_uri := some "https://t.bridgeapp.com/cb",
          state := some "abc" } "NEWC" 0).response =
      .notFound "No OHSAccount matches the given query." ∧
    (authorize wDB wSessStale { is_authenticated := false, email := "" }
        { client_id := some "cid", redirect_uri := some "https://t.bridgeapp.com/cb",
          state := some "abc" } "NEWC" 0).response.isForbidden = false) ∧
    ((authorize wNoAuthDB wSessAid { is_authenticated := false, email := "" }
        { client_id := some "cid", redirect_uri := some "https://t.bridgeapp.com/cb",
          state := some "abc" } "NEWC" 0).response =
      .badRequest "Authentication not configured" ∧
    (authorize wNoAuthDB wSessAid { is_authenticated := false, email := "" }
        { client_id := some "cid", redirect_uri := some "https://t.bridgeapp.com/cb",
          state := some "abc" } "NEWC" 0).response.isForbidden = false) := by
  refine ⟨⟨rfl, rfl⟩, ⟨rfl, rfl⟩⟩

/-- **C8 (amended).**  In the Authorization Endpoint, when an
identity-recovery lookup points at an Account that cannot be found the
response is a 404 not-found (the `Http404` of `get_object_or_404` is not
caught by the view's `DoesNotExist` handler, which is unreachable), and when
no active AuthClient record exists the response is a 400 bad request
(`"Authentication not configured"`); neither is of the forbidden class. -/
theorem C8_missing_entity_responses (db : DB) (sess : Session) (user : UserCtx)
    (cid ruri st nc : String) (now : Int) :
    (∀ aid : Nat, sess.ohs_account_id = some aid →
      db.accounts.filter (·.id = aid) = [] →
      authorize db sess user
          { client_id := some cid, redirect_uri := some ruri, state := some st }
          nc now =
        { db := db, session := sess,
          response := .notFound "No OHSAccount matches the given query." }) ∧
    (∀ u : String, sess.ohs_account_id = none → sess.ohs_unique_id = some u →
      db.accounts.filter (·.unique_id = u) = [] →
      authorize db sess user
          { client_id := some cid, redirect_uri := some ruri, state := some st }
          nc now =
        { db := db, session := sess,
          response := .notFound "No OHSAccount matches the given query." }) ∧
    (sess.ohs_account_id = none → sess.ohs_unique_id = none →
      (st = "" ∨ stateDecodedUid db st = none) → user.is_authenticated = true →
      db.accounts.filter (·.user_email = user.email) = [] →
      authorize db sess user
          { client_id := some cid, redirect_uri := some ruri, state := some st }
          nc now =
        { db := db, session := sess,
          response := .notFound "No OHSAccount matches the given query." }) ∧
    (∀ (aid : Nat) (a : OHSAccount), sess.ohs_account_id = some aid →
      db.accounts.filter (·.id = aid) = [a] →
      (db.auths.filter (·.is_active)).head? = none →
      authorize db sess user
          { client_id := some cid, redirect_uri := some ruri, state := some st }
          nc now =
        { db := db, session := sess,
          response := .badRequest "Authentication not configured" }) := by
  refine ⟨?_, ?_, ?_, ?_⟩
  · intro aid h1 h2
    exact authorize_aid_missing db sess user cid ruri st nc now aid h1 h2
  · intro u h1 h2 h3
    exact authorize_uid_missing db sess user cid ruri st nc now u h1 h2 h3
  · intro h1 h2 h3 h4 h5
    exact authorize_email_missing db sess user cid ruri st nc now h1 h2 h3 h4 h5
  · intro aid a h1 h2 h3
    exact authorize_no_active_client db sess user cid ruri st nc now aid a h1 h2 h3

/-- **C8 witness.** -/
theorem C8_witness :
    (wDB.accounts.filter (·.id = 5) = [] ∧
      authorize wDB wSessStale { is_authenticated := false, email := "" }
          { client_id := some "cid", redirect_uri := some "https://t.bridgeapp.com/cb",
            state := some "xyz" } "NEWC" 0 =
        { db := wDB, session := wSessStale,
          response := .notFound "No OHSAccount matches the given query." }) ∧
    ((wNoAuthDB.auths.filter (·.is_active)).head? = none ∧
      authorize wNoAuthDB wSessAid { is_authenticated := false, email := "" }
          { client_id := some "cid", redirect_uri := some "https://t.bridgeapp.com/cb",
            state := some "xyz" } "NEWC" 0 =
        { db := wNoAuthDB, session := wSessAid,
          response := .badRequest "Authentication not configured" }) := by
  refine ⟨⟨by decide, ?_⟩, ⟨by decide, ?_⟩⟩
  · exact (C8_missing_entity_responses wDB wSessStale
      { is_authenticated := false, email := "" } "cid" "https://t.bridgeapp.com/cb"
      "xyz" "NEWC" 0).1 5 rfl (by decide)
  · exact (C8_missing_entity_responses wNoAuthDB wSessAid
      { is_authenticated := false, email := "" } "cid" "https://t.bridgeapp.com/cb"
      "xyz" "NEWC" 0).2.2.2 1 wAcct rfl (by decide) (by decide)

/-! ## C5 — split machinery for the signature codec -/

/-- `pySplitF` ignores extra fuel. -/
theorem pySplitF_congr (s0 : Char) (sep : List Char) :
    ∀ (f1 f2 : Nat) (l : List Char), l.length ≤ f1 → l.length ≤ f2 →
      pySplitF s0 sep f1 l = pySplitF s0 sep f2 l := by
  intro f1
  induction f1 with
  | zero =>
    intro f2 l h1 _
    have hl : l = [] := List.length_eq_zero.mp (Nat.le_zero.mp h1)
    subst hl
    cases f2 <;> rfl
  | succ k ih =>
    intro f2 l h1 h2
    cases l with
    | nil => cases f2 <;> rfl
    | cons c rest =>
      cases f2 with
      | zero => simp at h2
      | succ m =>
        have hr : rest.length ≤ k := by
          have := h1
          simp only [List.length_cons] at this
          omega
        have hr2 : rest.length ≤ m := by
          have := h2
          simp only [List.length_cons] at this
          omega
        simp only [pySplitF]
        by_cases hp : (s0 :: sep).isPrefixOf (c :: rest) = true
        · simp only [hp, if_true]
          have hd : (rest.drop sep.length).length ≤ rest.length := by
            rw [List.length_drop]; omega
          rw [ih m (rest.drop sep.length) (le_trans hd hr) (le_trans hd hr2)]
        · simp only [Bool.not_eq_true] at hp
          simp only [hp, Bool.false_eq_true, if_false]
          rw [ih m rest hr hr2]

/-- Unfolding `pySplit` at a separator occurrence. -/
theorem pySplit_cons_pos (s0 : Char) (sep : List Char) (c : Char) (rest : List Char)
    (hp : (s0 :: sep).isPrefixOf (c :: rest) = true) :
    pySplit s0 sep (c :: rest) = [] :: pySplit s0 sep (rest.drop sep.length) := by
  unfold pySplit
  simp only [List.length_cons, pySplitF, hp, if_true]
  congr 1
  exact pySplitF_congr s0 sep rest.length (rest.drop sep.length).length
    (rest.drop sep.length) (by rw [List.length_drop]; omega) (le_refl _)

/-- Unfolding `pySplit` when no separator starts here. -/
theorem pySplit_cons_neg (s0 : Char) (sep : List Char) (c : Char) (rest : List Char)
    (hp : (s0 :: sep).isPrefixOf (c :: rest) = false) :
    pySplit s0 sep (c :: rest) = consHead c (pySplit s0 sep rest) := by
  unfold pySplit
  simp only [List.length_cons, pySplitF, hp, Bool.false_eq_true, if_false]

/-- A list free of the separator never splits. -/
theorem pySplit_nosep (s0 : Char) (sep : List Char) :
    ∀ l : List Char, containsSeq (s0 :: sep) l = false → pySplit s0 sep l = [l] := by
  intro l
  induction l with
  | nil => intro _; rfl
  | cons c rest ih =>
    intro h
    simp only [containsSeq, Bool.or_eq_false_iff] at h
    rw [pySplit_cons_neg s0 sep c rest h.1, ih h.2]
    rfl

/-- `containsSeq` characterizes contiguous occurrence. -/
theorem containsSeq_eq_append (sep : List Char) :
    ∀ l : List Char, containsSeq sep l = true ↔ ∃ a b, l = a ++ sep ++ b := by
  intro l
  constructor
  · induction l with
    | nil =>
      intro h
      simp only [containsSeq, List.isEmpty_iff] at h
      exact ⟨[], [], by simp [h]⟩
    | cons c rest ih =>
      intro h
      simp only [containsSeq, Bool.or_eq_true] at h
      rcases h with hp | hr
      · obtain ⟨t, ht⟩ := List.isPrefixOf_iff_prefix.mp hp
        exact ⟨[], t, by simp [← ht]⟩
      · obtain ⟨a, b, hab⟩ := ih hr
        exact ⟨c :: a, b, by simp [hab]⟩
  · rintro ⟨a, b, rfl⟩
    induction a with
    | nil =>
      simp only [List.nil_append]
      cases sep with
      | nil => cases b <;> simp [containsSeq, List.isPrefixOf]
      | cons s0 st =>
        simp only [List.cons_append, containsSeq, Bool.or_eq_true]
        left
        exact List.isPrefixOf_iff_prefix.mpr ⟨b, by simp⟩
    | cons c a ih =>
      simp only [List.cons_append, containsSeq, Bool.or_eq_true]
      right
      exact ih

/-- First-separator decomposition: two decompositions at a separator either
agree or the right one lies strictly further along. -/
theorem append_sep_cases (c : Char) :
    ∀ (x a y b : List Char), c ∉ x → x ++ c :: y = a ++ c :: b →
      (x = a ∧ y = b) ∨ ∃ a', a = x ++ c :: a' ∧ y = a' ++ c :: b := by
  intro x
  induction x with
  | nil =>
    intro a y b _ h
    cases a with
    | nil =>
      simp only [List.nil_append, List.cons.injEq] at h
      exact Or.inl ⟨rfl, h.2⟩
    | cons a0 a' =>
      simp only [List.nil_append, List.cons_append, List.cons.injEq] at h
      exact Or.inr ⟨a', by simp [← h.1], h.2⟩
  | cons x0 x' ih =>
    intro a y b hc h
    have hx0 : x0 ≠ c := fun he => hc (he ▸ List.mem_cons_self x0 x')
    cases a with
    | nil =>
      simp only [List.cons_append, List.nil_append, List.cons.injEq] at h
      exact absurd h.1 hx0
    | cons a0 a' =>
      simp only [List.cons_append, List.cons.injEq] at h
      obtain ⟨h1, h2⟩ := h
      subst h1
      rcases ih a' y b (fun hm => hc (List.mem_cons_of_mem _ hm)) h2 with
        ⟨rfl, rfl⟩ | ⟨a'', h3, h4⟩
      · exact Or.inl ⟨rfl, rfl⟩
      · exact Or.inr ⟨a'', by rw [h3]; simp, h4⟩

/-- First-separator uniqueness when neither prefix contains the separator. -/
theorem append_sep_unique (c : Char) (x a y b : List Char)
    (hx : c ∉ x) (ha : c ∉ a) (h : x ++ c :: y = a ++ c :: b) :
    x = a ∧ y = b := by
  rcases append_sep_cases c x a y b hx h with hgood | ⟨a', h1, _⟩
  · exact hgood
  · exfalso
    apply ha
    rw [h1]
    exact List.mem_append_right x (List.mem_cons_self c a')

/-- If the separator has no self-overlap and does not start inside `x`, it
does not start at the very beginning of `x ++ sep ++ b` either. -/
theorem not_isPrefixOf_append (s0 : Char) (sep : List Char)
    (hso : ∀ d, 0 < d → d < (s0 :: sep).length →
      ((s0 :: sep).drop d).isPrefixOf (s0 :: sep) = false)
    (x b : List Char) (hx0 : x ≠ [])
    (hpx : (s0 :: sep).isPrefixOf x = false) :
    (s0 :: sep).isPrefixOf (x ++ (s0 :: sep) ++ b) = false := by
  by_contra hcon
  simp only [Bool.not_eq_false] at hcon
  have hpre := List.isPrefixOf_iff_prefix.mp hcon
  have heq := List.prefix_iff_eq_take.mp hpre
  by_cases hlen : (s0 :: sep).length ≤ x.length
  · have htk : List.take (s0 :: sep).length (x ++ (s0 :: sep) ++ b) =
        List.take (s0 :: sep).length x := by
      rw [List.append_assoc, List.take_append_eq_append_take,
        Nat.sub_eq_zero_of_le hlen, List.take_zero, List.append_nil]
    rw [htk] at heq
    have : (s0 :: sep) <+: x := heq ▸ List.take_prefix _ x
    rw [List.isPrefixOf_iff_prefix.mpr this] at hpx
    exact Bool.true_eq_false.mp hpx
  · push_neg at hlen
    have hd0 : 0 < x.length := List.length_pos.mpr hx0
    have htk : List.take (s0 :: sep).length (x ++ (s0 :: sep) ++ b) =
        x ++ List.take ((s0 :: sep).length - x.length) ((s0 :: sep) ++ b) := by
      rw [List.append_assoc, List.take_append_eq_append_take,
        List.take_of_length_le (le_of_lt hlen)]
    rw [htk] at heq
    have hdrop : (s0 :: sep).drop x.length =
        List.take ((s0 :: sep).length - x.length) ((s0 :: sep) ++ b) := by
      conv_lhs => rw [heq]
      rw [List.drop_left]
    have htk2 : List.take ((s0 :: sep).length - x.length) ((s0 :: sep) ++ b) =
        List.take ((s0 :: sep).length - x.length) (s0 :: sep) := by
      rw [List.take_append_eq_append_take, Nat.sub_eq_zero_of_le (Nat.sub_le _ _),
        List.take_zero, List.append_nil]
    rw [htk2] at hdrop
    have hpref : ((s0 :: sep).drop x.length) <+: (s0 :: sep) :=
      hdrop ▸ List.take_prefix _ _
    have := hso x.length hd0 hlen
    rw [List.isPrefixOf_iff_prefix.mpr hpref] at this
    exact Bool.true_eq_false.mp this

/-- The central split fact: a token built as `a ++ sep ++ b` with the marker
occurring in neither `a` nor `b` splits into exactly `[a, b]`. -/
theorem pySplit_marker (s0 : Char) (sep : List Char)
    (hso : ∀ d, 0 < d → d < (s0 :: sep).length →
      ((s0 :: sep).drop d).isPrefixOf (s0 :: sep) = false) :
    ∀ a b : List Char, containsSeq (s0 :: sep) a = false →
      containsSeq (s0 :: sep) b = false →
      pySplit s0 sep (a ++ (s0 :: sep) ++ b) = [a, b] := by
  intro a
  induction a with
  | nil =>
    intro b _ hb
    simp only [List.nil_append, List.cons_append]
    have hp : (s0 :: sep).isPrefixOf (s0 :: (sep ++ b)) = true := by
      apply List.isPrefixOf_iff_prefix.mpr
      exact ⟨b, by simp⟩
    rw [pySplit_cons_pos s0 sep s0 (sep ++ b) hp, List.drop_left,
      pySplit_nosep s0 sep b hb]
  | cons c a' ih =>
    intro b ha hb
    simp only [containsSeq, Bool.or_eq_false_iff] at ha
    have hnp := not_isPrefixOf_append s0 sep hso (c :: a') b (by simp) ha.1
    simp only [List.cons_append] at hnp ⊢
    rw [pySplit_cons_neg s0 sep c (a' ++ (s0 :: sep) ++ b)
      (by simpa [List.append_assoc] using hnp)]
    rw [show a' ++ (s0 :: sep) ++ b = (a' ++ (s0 :: sep)) ++ b from rfl] at *
    rw [ih b ha.2 hb]
    rfl

/-! ## C5 — encoding and parsing lemmas -/

/-- Safe bytes are below 128, not the space. -/
theorem urlSafeByte_props (b : Nat) (h : urlSafeByte b = true) : b < 128 ∧ b ≠ 32 := by
  unfold urlSafeByte at h
  simp only [Bool.or_eq_true, Bool.and_eq_true, decide_eq_true_eq, beq_iff_eq] at h
  omega

/-- A safe character UTF-8-encodes to its own code point, which `quote_plus`
leaves alone. -/
theorem quotePlus_safe_char (c : Char) (h : safeChar c = true) :
    utf8Encode c = [c.toNat] ∧ quoteByteQP c.toNat = [c] := by
  unfold safeChar at h
  obtain ⟨h128, h32⟩ := urlSafeByte_props c.toNat h
  constructor
  · unfold utf8Encode
    simp [h128]
  · unfold quoteByteQP
    rw [if_neg h32, if_pos h, Char.ofNat_toNat]

/-- `quote_plus` is the identity on safe strings. -/
theorem quotePlusL_safe : ∀ l : List Char, (∀ c ∈ l, safeChar c = true) →
    quotePlusL l = l := by
  intro l
  induction l with
  | nil => intro _; rfl
  | cons c t ih =>
    intro h
    obtain ⟨he, hq⟩ := quotePlus_safe_char c (h c (List.mem_cons_self c t))
    have hstep : quotePlusL (c :: t) = quoteByteQP c.toNat ++ quotePlusL t := by
      unfold quotePlusL utf8Bytes
      simp [he, List.map_append, List.flatten_append]
    rw [hstep, hq, ih (fun x hx => h x (List.mem_cons_of_mem c hx))]
    rfl

/-- On safe mappings the url-encoding is the plain query string. -/
theorem urlencodeStrL_safe (f : List (List Char × List Char))
    (h : ∀ kv ∈ f, (∀ c ∈ kv.1, safeChar c = true) ∧ (∀ c ∈ kv.2, safeChar c = true)) :
    urlencodeStrL f = plainQS f := by
  unfold urlencodeStrL plainQS
  congr 1
  apply List.map_congr_left
  intro kv hkv
  obtain ⟨h1, h2⟩ := h kv hkv
  rw [quotePlusL_safe kv.1 h1, quotePlusL_safe kv.2 h2]
  simp

/-- `splitChar` inverts `intercalate` on separator-free fields. -/
theorem splitChar_intercalate (sep : Char) :
    ∀ ps : List (List Char), ps ≠ [] → (∀ p ∈ ps, ∀ c ∈ p, ¬ c = sep) →
      splitChar sep (List.intercalate [sep] ps) = ps := by
  intro ps
  induction ps with
  | nil => intro h; exact absurd rfl h
  | cons p rest ih =>
    intro _ h
    cases rest with
    | nil =>
      show splitChar sep (List.intercalate [sep] [p]) = [p]
      rw [show List.intercalate [sep] [p] = p by simp [List.intercalate]]
      exact splitChar_nosep sep p (h p (List.mem_cons_self p []))
    | cons q rest' =>
      rw [show List.intercalate [sep] (p :: q :: rest') =
          p ++ sep :: List.intercalate [sep] (q :: rest') by
        simp [List.intercalate, List.intersperse]]
      rw [splitChar_sep_front sep (List.intercalate [sep] (q :: rest')) p
          (fun c hc => h p (List.mem_cons_self p _) c hc),
        ih (by simp) (fun x hx => h x (List.mem_cons_of_mem p hx))]

/-- `split('=', 1)` undoes `k ++ '=' :: v` when `k` is `'='`-free. -/
theorem splitOnce_append (sep : Char) :
    ∀ k v : List Char, (∀ c ∈ k, ¬ c = sep) →
      splitOnce sep (k ++ sep :: v) = (k, v) := by
  intro k v
  induction k with
  | nil =>
    intro _
    unfold splitOnce
    simp [List.takeWhile, List.dropWhile]
  | cons c k' ih =>
    intro h
    have hc : ¬ c = sep := h c (List.mem_cons_self c k')
    have ih' := ih (fun x hx => h x (List.mem_cons_of_mem c hx))
    unfold splitOnce at ih' ⊢
    simp only [Prod.mk.injEq] at ih' ⊢
    obtain ⟨ih1, ih2⟩ := ih'
    constructor
    · simp only [List.cons_append, List.takeWhile_cons, hc, decide_eq_true_eq]
      rw [if_pos hc]
      rw [ih1]
    · simp only [List.cons_append, List.dropWhile_cons, hc, decide_eq_true_eq]
      rw [if_pos hc]
      exact ih2

/-- The verify-side fold rebuilds the mapping from its encoded pairs. -/
theorem parse_fold :
    ∀ (f d : List (List Char × List Char)),
      (∀ kv ∈ f, ∀ c ∈ kv.1, ¬ c = '=') →
      (∀ kv ∈ f, d.any (fun e => e.1 = kv.1) = false) →
      (f.map Prod.fst).Nodup →
      (f.map (fun kv => kv.1 ++ '=' :: kv.2)).foldl
        (fun d pair =>
          if pair.contains '=' then
            match splitOnce '=' pair with
            | (k, v) => dictInsertStr d k v
          else d) d = d ++ f := by
  intro f
  induction f with
  | nil => intro d _ _ _; simp
  | cons kv f' ih =>
    intro d hsafe hdisj hnodup
    simp only [List.map_cons, List.foldl_cons]
    have hcont : (kv.1 ++ '=' :: kv.2).contains '=' = true :=
      List.elem_eq_true_of_mem (by simp)
    have hsp := splitOnce_append '=' kv.1 kv.2 (hsafe kv (List.mem_cons_self kv f'))
    have hins : dictInsertStr d kv.1 kv.2 = d ++ [kv] := by
      unfold dictInsertStr
      rw [hdisj kv (List.mem_cons_self kv f'), if_neg (by simp)]
    simp only [hcont, if_true, hsp, hins]
    rw [List.map_cons] at hnodup
    have hnodup' : (f'.map Prod.fst).Nodup := (List.nodup_cons.mp hnodup).2
    have hkvnot : kv.1 ∉ f'.map Prod.fst := (List.nodup_cons.mp hnodup).1
    have hdisj' : ∀ kv' ∈ f', (d ++ [kv]).any (fun e => e.1 = kv'.1) = false := by
      intro kv' hkv'
      rw [List.any_append]
      have h1 := hdisj kv' (List.mem_cons_of_mem kv hkv')
      have h2 : ¬ kv.1 = kv'.1 := by
        intro he
        exact hkvnot (he ▸ List.mem_map.mpr ⟨kv', hkv', rfl⟩)
      simp [h1, h2]
    rw [ih (d ++ [kv]) (fun x hx => hsafe x (List.mem_cons_of_mem kv hx)) hdisj' hnodup']
    simp

/-- `parseQS` inverts `plainQS` for `=`-keyed, `&`-free, nodup mappings. -/
theorem parseQS_plain (f : List (List Char × List Char))
    (hk : ∀ kv ∈ f, ∀ c ∈ kv.1, ¬ c = '=')
    (hamp : ∀ kv ∈ f, (∀ c ∈ kv.1, ¬ c = '&') ∧ (∀ c ∈ kv.2, ¬ c = '&'))
    (hnodup : (f.map Prod.fst).Nodup) :
    parseQS (plainQS f) = f := by
  cases f with
  | nil => rfl
  | cons kv f' =>
    unfold parseQS plainQS
    rw [splitChar_intercalate '&' ((kv :: f').map fun kv => kv.1 ++ '=' :: kv.2)
      (by simp) ?hfree]
    case hfree =>
      intro p hp c hc
      rcases List.mem_map.mp hp with ⟨kv', hkv', rfl⟩
      rcases List.mem_append.mp hc with hc1 | hc2
      · exact (hamp kv' hkv').1 c hc1
      · rcases List.mem_cons.mp hc2 with rfl | hc3
        · decide
        · exact (hamp kv' hkv').2 c hc3
    have := parse_fold (kv :: f') [] hk (by simp) hnodup
    simpa using this

/-! ## C5 — hex digests and marker absence -/

set_option maxRecDepth 4096 in
/-- Hex digits of a byte below 256 are hex characters, never `&`. -/
theorem byteToHex_chars :
    ∀ b : Nat, b < 256 → ∀ c ∈ byteToHex b, isHexChar c = true ∧ ¬ c = '&' := by
  decide

/-- All bytes of a SHA-256 digest are below 256. -/
theorem sha256Bytes_lt (m : List Nat) : ∀ x ∈ sha256Bytes m, x < 256 := by
  intro x hx
  simp only [sha256Bytes, beBytes4, List.mem_append, List.mem_cons,
    List.not_mem_nil, or_false] at hx
  omega

/-- Characters of an HMAC hex digest are hex characters, never `&`. -/
theorem hmacHexL_chars (k m : List Char) :
    ∀ c ∈ hmacHexL k m, isHexChar c = true ∧ ¬ c = '&' := by
  intro c hc
  unfold hmacHexL bytesToHexChars hmacSha256 at hc
  rcases List.mem_flatten.mp hc with ⟨l, hl, hcl⟩
  rcases List.mem_map.mp hl with ⟨b, hb, rfl⟩
  exact byteToHex_chars b (sha256Bytes_lt _ b hb) c hcl

/-- A list without `&` contains no `&signature=` marker. -/
theorem containsSeq_marker_of_no_amp :
    ∀ l : List Char, (∀ c ∈ l, ¬ c = '&') → containsSeq sigMarker l = false := by
  intro l
  induction l with
  | nil => intro _; rfl
  | cons c rest ih =>
    intro h
    have hc := h c (List.mem_cons_self c rest)
    have hbeq : ('&' == c) = false := beq_eq_false_iff_ne.mpr (fun he => hc he.symm)
    simp only [containsSeq, Bool.or_eq_false_iff]
    constructor
    · simp [sigMarker, List.isPrefixOf, hbeq]
    · exact ih (fun x hx => h x (List.mem_cons_of_mem c hx))

/-- An `&` occurrence inside a plain query string always starts the encoding
of a nonempty suffix of the mapping. -/
theorem plainQS_amp_split :
    ∀ (f : List (List Char × List Char)) (a r : List Char),
      (∀ kv ∈ f, (∀ c ∈ kv.1, ¬ c = '&') ∧ (∀ c ∈ kv.2, ¬ c = '&')) →
      plainQS f = a ++ '&' :: r →
      ∃ kv2 f3, (kv2 :: f3) <:+ f ∧ r = plainQS (kv2 :: f3) := by
  intro f
  induction f with
  | nil =>
    intro a r _ h
    exact absurd h (by simp [plainQS, List.intercalate])
  | cons kv rest ih =>
    intro a r hamp h
    have hencamp : '&' ∉ kv.1 ++ '=' :: kv.2 := by
      intro hmem
      rcases List.mem_append.mp hmem with h1 | h2
      · exact (hamp kv (List.mem_cons_self kv rest)).1 '&' h1 rfl
      · rcases List.mem_cons.mp h2 with he | h3
        · exact absurd he (by decide)
        · exact (hamp kv (List.mem_cons_self kv rest)).2 '&' h3 rfl
    cases rest with
    | nil =>
      rw [show plainQS [kv] = kv.1 ++ '=' :: kv.2 by
        simp [plainQS, List.intercalate]] at h
      exfalso
      apply hencamp
      rw [h]
      simp
    | cons kv2 rest' =>
      rw [show plainQS (kv :: kv2 :: rest') =
          (kv.1 ++ '=' :: kv.2) ++ '&' :: plainQS (kv2 :: rest') by
        simp [plainQS, List.intercalate, List.intersperse]] at h
      rcases append_sep_cases '&' (kv.1 ++ '=' :: kv.2) a (plainQS (kv2 :: rest')) r
        hencamp h with ⟨_, hy⟩ | ⟨a', _, hy⟩
      · exact ⟨kv2, rest', List.suffix_cons kv (kv2 :: rest'), hy.symm⟩
      · obtain ⟨kv3, f4, hsuf, hr⟩ :=
          ih a' r (fun x hx => hamp x (List.mem_cons_of_mem kv hx)) hy
        exact ⟨kv3, f4, hsuf.trans (List.suffix_cons kv (kv2 :: rest')), hr⟩

/-- The encoding of a nonempty mapping starts with its first key and an `=`. -/
theorem plainQS_cons_shape (kv : List Char × List Char)
    (g : List (List Char × List Char)) :
    ∃ y, plainQS (kv :: g) = kv.1 ++ '=' :: y := by
  cases g with
  | nil => exact ⟨kv.2, by simp [plainQS, List.intercalate]⟩
  | cons kv2 g' =>
    refine ⟨kv.2 ++ '&' :: plainQS (kv2 :: g'), ?_⟩
    rw [show plainQS (kv :: kv2 :: g') =
        (kv.1 ++ '=' :: kv.2) ++ '&' :: plainQS (kv2 :: g') by
      simp [plainQS, List.intercalate, List.intersperse]]
    simp

/-- A safe character is neither `=` nor `&`. -/
theorem safeChar_props (c : Char) (h : safeChar c = true) : ¬ c = '=' ∧ ¬ c = '&' :=
  ⟨fun he => absurd (he ▸ h) (by decide), fun he => absurd (he ▸ h) (by decide)⟩

/-- The marker `&signature=` never occurs in the plain query string of a safe
mapping without a `signature` key. -/
theorem plainQS_no_marker (f : List (List Char × List Char))
    (hamp : ∀ kv ∈ f, (∀ c ∈ kv.1, ¬ c = '&') ∧ (∀ c ∈ kv.2, ¬ c = '&'))
    (hkeq : ∀ kv ∈ f, ∀ c ∈ kv.1, ¬ c = '=')
    (hsig : ∀ kv ∈ f, kv.1 ≠ "signature".data) :
    containsSeq sigMarker (plainQS f) = false := by
  by_contra hcon
  simp only [Bool.not_eq_false] at hcon
  obtain ⟨a, b, hab⟩ := (containsSeq_eq_append sigMarker (plainQS f)).mp hcon
  have hab' : plainQS f = a ++ '&' :: ("signature".data ++ '=' :: b) := by
    rw [hab]
    simp [sigMarker]
  obtain ⟨kv2, f3, hsuf, hr⟩ := plainQS_amp_split f a _ hamp hab'
  obtain ⟨y, hy⟩ := plainQS_cons_shape kv2 f3
  rw [hy] at hr
  have hkv2 : kv2 ∈ f := hsuf.subset (List.mem_cons_self kv2 f3)
  have hx : '=' ∉ "signature".data := by decide
  have ha : '=' ∉ kv2.1 := fun hm => hkeq kv2 hkv2 '=' hm rfl
  have := (append_sep_unique '=' "signature".data kv2.1 b y hx ha hr).1
  exact hsig kv2 hkv2 this.symm

/-- List-level round trip of the signature codec on safe mappings. -/
theorem verify_sign_roundtripL (fL : List (List Char × List Char)) (sL : List Char)
    (hsafe : ∀ kv ∈ fL, (∀ c ∈ kv.1, safeChar c = true) ∧ (∀ c ∈ kv.2, safeChar c = true))
    (hnodup : (fL.map Prod.fst).Nodup)
    (hsig : ∀ kv ∈ fL, kv.1 ≠ "signature".data) :
    verifyTokenL (signTokenL fL sL) sL = some fL := by
  have hkeq : ∀ kv ∈ fL, ∀ c ∈ kv.1, ¬ c = '=' :=
    fun kv hkv c hc => (safeChar_props c ((hsafe kv hkv).1 c hc)).1
  have hamp : ∀ kv ∈ fL, (∀ c ∈ kv.1, ¬ c = '&') ∧ (∀ c ∈ kv.2, ¬ c = '&') :=
    fun kv hkv =>
      ⟨fun c hc => (safeChar_props c ((hsafe kv hkv).1 c hc)).2,
       fun c hc => (safeChar_props c ((hsafe kv hkv).2 c hc)).2⟩
  have hq : containsSeq ('&' :: ['s', 'i', 'g', 'n', 'a', 't', 'u', 'r', 'e', '='])
      (plainQS fL) = false := plainQS_no_marker fL hamp hkeq hsig
  have hh : containsSeq ('&' :: ['s', 'i', 'g', 'n', 'a', 't', 'u', 'r', 'e', '='])
      (hmacHexL sL (plainQS fL)) = false :=
    containsSeq_marker_of_no_amp (hmacHexL sL (plainQS fL))
      (fun c hc => (hmacHexL_chars sL (plainQS fL) c hc).2)
  simp only [signTokenL, verifyTokenL, sigMarker, urlencodeStrL_safe fL hsafe]
  rw [pySplit_marker '&' ['s', 'i', 'g', 'n', 'a', 't', 'u', 'r', 'e', '=']
    (by
      intro d h1 h2
      have h2' : d < 11 := by simpa using h2
      interval_cases d <;> decide)
    (plainQS fL) (hmacHexL sL (plainQS fL)) hq hh]
  have hfin : (if hmacHexL sL (plainQS fL) = hmacHexL sL (plainQS fL) then
      some (parseQS (plainQS fL)) else none) = some fL := by
    rw [if_pos rfl, parseQS_plain fL hkeq hamp hnodup]
  exact hfin

/-! ## C5 — tampering -/

/-- Building a string from a character list and projecting back is the identity. -/
theorem stringData_mk (l : List Char) : (String.mk l).data = l := rfl

/-- Verification fails on any token whose query-string part is marker-free but
whose trailing digest is not the HMAC of that part. -/
theorem verifyTokenL_tampered (qs hex sL : List Char)
    (hq : containsSeq sigMarker qs = false)
    (hh : containsSeq sigMarker hex = false)
    (hne : ¬ hex = hmacHexL sL qs) :
    verifyTokenL (qs ++ sigMarker ++ hex) sL = none := by
  have hq' : containsSeq ('&' :: ['s', 'i', 'g', 'n', 'a', 't', 'u', 'r', 'e', '=']) qs
      = false := hq
  have hh' : containsSeq ('&' :: ['s', 'i', 'g', 'n', 'a', 't', 'u', 'r', 'e', '=']) hex
      = false := hh
  simp only [verifyTokenL, sigMarker]
  rw [pySplit_marker '&' ['s', 'i', 'g', 'n', 'a', 't', 'u', 'r', 'e', '=']
    (by
      intro d h1 h2
      have h2' : d < 11 := by simpa using h2
      interval_cases d <;> decide)
    qs hex hq' hh']
  have hfin : (if hex = hmacHexL sL qs then some (parseQS qs) else none) = none :=
    if_neg hne
  exact hfin

/-- Overwriting a valid position with a different character changes the list. -/
theorem set_ne_of_ne_get (l : List Char) (i : Nat) (c : Char) (h : i < l.length)
    (hc : ¬ l[i]? = some c) : ¬ l.set i c = l := by
  intro he
  apply hc
  rw [← he]
  exact List.getElem?_set_eq_of_lt c h

/-- A single-position overwrite of an all-hex list introduces no marker: the
marker starts with two adjacent non-hex characters but at most one position
changed. -/
theorem containsSeq_marker_set_hex (l : List Char) (i : Nat) (c : Char)
    (hhex : ∀ x ∈ l, isHexChar x = true) :
    containsSeq sigMarker (l.set i c) = false := by
  by_contra hcon
  simp only [Bool.not_eq_false] at hcon
  obtain ⟨a, b, hab⟩ := (containsSeq_eq_append sigMarker (l.set i c)).mp hcon
  have h0 : (l.set i c)[a.length]? = some '&' := by
    rw [hab, show a ++ sigMarker ++ b =
        a ++ ('&' :: (['s', 'i', 'g', 'n', 'a', 't', 'u', 'r', 'e', '='] ++ b)) by
      simp [sigMarker],
      List.getElem?_append_right (le_refl a.length)]
    simp
  have h1 : (l.set i c)[a.length + 1]? = some 's' := by
    rw [hab, show a ++ sigMarker ++ b =
        a ++ ('&' :: 's' :: (['i', 'g', 'n', 'a', 't', 'u', 'r', 'e', '='] ++ b)) by
      simp [sigMarker],
      List.getElem?_append_right (by omega : a.length ≤ a.length + 1)]
    simp
  have key : ∀ j x, (l.set i c)[j]? = some x → ¬ i = j → isHexChar x = true := by
    intro j x hj hij
    rw [List.getElem?_set_ne hij] at hj
    exact hhex x (List.getElem?_mem hj)
  by_cases hi : i = a.length
  · have := key (a.length + 1) 's' h1 (by omega)
    exact absurd this (by decide)
  · have := key a.length '&' h0 hi
    exact absurd this (by decide)

/-- Lift per-entry safety through the `String.data` projection. -/
theorem mapData_safe (g : List (String × String))
    (h : ∀ kv ∈ g, (∀ c ∈ kv.1.data, safeChar c = true) ∧
      (∀ c ∈ kv.2.data, safeChar c = true)) :
    ∀ kv ∈ (g.map fun kv => (kv.1.data, kv.2.data)),
      (∀ c ∈ kv.1, safeChar c = true) ∧ (∀ c ∈ kv.2, safeChar c = true) := by
  intro kv hkv
  rcases List.mem_map.mp hkv with ⟨kv', hkv', rfl⟩
  exact h kv' hkv'

/-- Lift absence of a `signature` key through the `String.data` projection. -/
theorem mapData_sig (g : List (String × String))
    (h : ∀ kv ∈ g, ¬ kv.1 = "signature") :
    ∀ kv ∈ (g.map fun kv => (kv.1.data, kv.2.data)), kv.1 ≠ "signature".data := by
  intro kv hkv
  rcases List.mem_map.mp hkv with ⟨kv', hkv', rfl⟩
  intro hd
  apply h kv' hkv'
  have h2 : String.mk kv'.1.data = String.mk "signature".data := congrArg String.mk hd
  rwa [stringMk_data, stringMk_data] at h2

/-- Marker-freeness of the plain query string of a safe mapping, stated over
`String`-keyed mappings. -/
theorem plainQS_no_marker_str (g : List (String × String))
    (hsafe : ∀ kv ∈ g, (∀ c ∈ kv.1.data, safeChar c = true) ∧
      (∀ c ∈ kv.2.data, safeChar c = true))
    (hsig : ∀ kv ∈ g, ¬ kv.1 = "signature") :
    containsSeq sigMarker (plainQS (g.map fun kv => (kv.1.data, kv.2.data))) = false := by
  apply plainQS_no_marker
  · exact fun kv hkv =>
      ⟨fun c hc => (safeChar_props c ((mapData_safe g hsafe kv hkv).1 c hc)).2,
       fun c hc => (safeChar_props c ((mapData_safe g hsafe kv hkv).2 c hc)).2⟩
  · exact fun kv hkv c hc => (safeChar_props c ((mapData_safe g hsafe kv hkv).1 c hc)).1
  · exact mapData_sig g hsig

set_option maxRecDepth 100000 in
set_option maxHeartbeats 4000000 in
/-- **C5 counterexample**: `verify(sign(f, s), s) = f` fails for the mapping
`[("a", "b c")]` — `urlencode` turns the space into `+`, and `verify_token`
never unescapes, so the value comes back as `"b+c"`. -/
theorem C5_counterexample :
    verify_token (sign_token [("a", "b c")] "s") "s" = some [("a", "b+c")] ∧
    ¬ verify_token (sign_token [("a", "b c")] "s") "s" = some [("a", "b c")] := by
  have heq : verify_token (sign_token [("a", "b c")] "s") "s" = some [("a", "b+c")] := by
    decide
  refine ⟨heq, ?_⟩
  rw [heq]
  decide

set_option maxHeartbeats 1000000 in
/-- **C5** (corrected): on mappings whose keys and values consist only of
URL-safe characters, with pairwise-distinct keys none of which is
`signature`, the codec round trips: the packed token is the plain query
string plus `&signature=` plus the HMAC hex digest, and
`verify_token (sign_token f s) s = some f`.  Replacing any single digest
character by a different character makes verification fail unconditionally;
replacing a single character of a field value by another safe character makes
verification fail whenever the mutated query string's digest differs from the
original one (HMAC collision-freeness of the concrete pair). -/
theorem C5_signature_codec (f : List (String × String)) (s : String)
    (hsafe : ∀ kv ∈ f, (∀ c ∈ kv.1.data, safeChar c = true) ∧
      (∀ c ∈ kv.2.data, safeChar c = true))
    (hnodup : (f.map fun kv => kv.1.data).Nodup)
    (hsig : ∀ kv ∈ f, ¬ kv.1 = "signature") :
    sign_token f s =
      ⟨plainQS (f.map fun kv => (kv.1.data, kv.2.data)) ++ sigMarker ++
        hmacHexL s.data (plainQS (f.map fun kv => (kv.1.data, kv.2.data)))⟩ ∧
    verify_token (sign_token f s) s = some f ∧
    (∀ i c,
      i < (hmacHexL s.data
        (plainQS (f.map fun kv => (kv.1.data, kv.2.data)))).length →
      ¬ (hmacHexL s.data
        (plainQS (f.map fun kv => (kv.1.data, kv.2.data))))[i]? = some c →
      verify_token
        ⟨plainQS (f.map fun kv => (kv.1.data, kv.2.data)) ++ sigMarker ++
          (hmacHexL s.data
            (plainQS (f.map fun kv => (kv.1.data, kv.2.data)))).set i c⟩ s
        = none) ∧
    (∀ f1 f2 k v j c, f = f1 ++ (k, v) :: f2 → safeChar c = true →
      ¬ hmacHexL s.data
          (plainQS ((f1 ++ (k, String.mk (v.data.set j c)) :: f2).map
            fun kv => (kv.1.data, kv.2.data))) =
        hmacHexL s.data (plainQS (f.map fun kv => (kv.1.data, kv.2.data))) →
      verify_token
        ⟨plainQS ((f1 ++ (k, String.mk (v.data.set j c)) :: f2).map
            fun kv => (kv.1.data, kv.2.data)) ++ sigMarker ++
          hmacHexL s.data (plainQS (f.map fun kv => (kv.1.data, kv.2.data)))⟩ s
        = none) := by
  set fL : List (List Char × List Char) := f.map fun kv => (kv.1.data, kv.2.data)
    with hfL
  have hsafeL : ∀ kv ∈ fL, (∀ c ∈ kv.1, safeChar c = true) ∧
      (∀ c ∈ kv.2, safeChar c = true) := by
    rw [hfL]
    exact mapData_safe f hsafe
  have hnodupL : (fL.map Prod.fst).Nodup := by
    rw [hfL, List.map_map]
    exact hnodup
  have hsigL : ∀ kv ∈ fL, kv.1 ≠ "signature".data := by
    rw [hfL]
    exact mapData_sig f hsig
  have hqmf : containsSeq sigMarker (plainQS fL) = false := by
    rw [hfL]
    exact plainQS_no_marker_str f hsafe hsig
  have hhmf : containsSeq sigMarker (hmacHexL s.data (plainQS fL)) = false :=
    containsSeq_marker_of_no_amp _
      (fun c hc => (hmacHexL_chars s.data (plainQS fL) c hc).2)
  refine ⟨?_, ?_, ?_, ?_⟩
  · simp only [sign_token, ← hfL, signTokenL, urlencodeStrL_safe fL hsafeL]
  · have hrt := verify_sign_roundtripL fL s.data hsafeL hnodupL hsigL
    simp only [verify_token, sign_token, ← hfL, stringData_mk]
    rw [hrt, Option.map_some']
    congr 1
    rw [hfL, List.map_map]
    have hid : ∀ kv ∈ f,
        ((fun kv : List Char × List Char => ((⟨kv.1⟩ : String), (⟨kv.2⟩ : String))) ∘
          fun kv : String × String => (kv.1.data, kv.2.data)) kv = id kv := by
      intro kv _
      simp [stringMk_data]
    rw [List.map_congr_left hid, List.map_id]
  · intro i c h hc
    have hset : ¬ (hmacHexL s.data (plainQS fL)).set i c = hmacHexL s.data (plainQS fL) :=
      set_ne_of_ne_get _ i c h hc
    have hh' : containsSeq sigMarker ((hmacHexL s.data (plainQS fL)).set i c) = false :=
      containsSeq_marker_set_hex _ i c
        (fun x hx => (hmacHexL_chars s.data (plainQS fL) x hx).1)
    have htamp := verifyTokenL_tampered (plainQS fL)
      ((hmacHexL s.data (plainQS fL)).set i c) s.data hqmf hh' hset
    simp only [verify_token, stringData_mk]
    rw [htamp]
    rfl
  · intro f1 f2 k v j c hf hcsafe hmis
    have hmemf : ∀ kv : String × String, kv ∈ f1 ∨ kv ∈ f2 → kv ∈ f := by
      intro kv hkv
      rw [hf]
      rcases hkv with h1 | h2
      · exact List.mem_append.mpr (Or.inl h1)
      · exact List.mem_append.mpr (Or.inr (List.mem_cons_of_mem _ h2))
    have hkvf : (k, v) ∈ f := by
      rw [hf]
      exact List.mem_append.mpr (Or.inr (List.mem_cons_self _ _))
    have hsafe2 : ∀ kv ∈ f1 ++ (k, String.mk (v.data.set j c)) :: f2,
        (∀ x ∈ kv.1.data, safeChar x = true) ∧ (∀ x ∈ kv.2.data, safeChar x = true) := by
      intro kv hkv
      rcases List.mem_append.mp hkv with h1 | h2
      · exact hsafe kv (hmemf kv (Or.inl h1))
      · rcases List.mem_cons.mp h2 with rfl | h3
        · refine ⟨(hsafe (k, v) hkvf).1, ?_⟩
          intro x hx
          have hx' : x ∈ v.data.set j c := hx
          rcases List.mem_or_eq_of_mem_set hx' with hxv | rfl
          · exact (hsafe (k, v) hkvf).2 x hxv
          · exact hcsafe
        · exact hsafe kv (hmemf kv (Or.inr h3))
    have hsig2 : ∀ kv ∈ f1 ++ (k, String.mk (v.data.set j c)) :: f2,
        ¬ kv.1 = "signature" := by
      intro kv hkv
      rcases List.mem_append.mp hkv with h1 | h2
      · exact hsig kv (hmemf kv (Or.inl h1))
      · rcases List.mem_cons.mp h2 with rfl | h3
        · exact hsig (k, v) hkvf
        · exact hsig kv (hmemf kv (Or.inr h3))
    set fM : List (List Char × List Char) :=
      (f1 ++ (k, String.mk (v.data.set j c)) :: f2).map fun kv => (kv.1.data, kv.2.data)
      with hfM
    have hq2 : containsSeq sigMarker (plainQS fM) = false := by
      rw [hfM]
      exact plainQS_no_marker_str _ hsafe2 hsig2
    have hne2 : ¬ hmacHexL s.data (plainQS fL) = hmacHexL s.data (plainQS fM) := by
      rw [hfM]
      exact fun he => hmis he.symm
    have htamp := verifyTokenL_tampered (plainQS fM)
      (hmacHexL s.data (plainQS fL)) s.data hq2 hhmf hne2
    simp only [verify_token, stringData_mk]
    rw [htamp]
    rfl

/-- **C5 witness**: the corrected round trip at a concrete safe mapping. -/
theorem C5_witness :
    verify_token (sign_token [("a", "b")] "s") "s" = some [("a", "b")] :=
  (C5_signature_codec [("a", "b")] "s" (by decide) (by decide) (by decide)).2.1

end Bridge
